import Mathlib

/-!
Asset management chaincode (`src/chaincode/assetcc.go`).

A shallow embedding of the five contract methods `CreateUser`, `RegisterAsset`,
`SubscribeAsset`, `RedeemAsset` and `GetPortfolio`, followed by theorems about them.

Modelling decisions.

* The world state is a finite map from keys to stored values.  A stored value is the JSON
  encoding of either an `Asset` or an `Investor`; `json.Marshal` is injective on both struct
  types, so the encoded bytes are represented by the value they encode (`Record`).  The two
  struct types have disjoint JSON field names, hence `json.Unmarshal` of one kind of record
  into the other struct type succeeds and leaves the zero value (`unmarshalAsset`,
  `unmarshalInvestor`).
* A Go map that may be `nil` is an `Option` of a finite map.
* The transaction stub and the `time` package are not part of the repository; what the
  contract uses of them is collected in `Env`: the transaction timestamp, the wall clock, the
  timestamp printer and parser, and whether a given read or write of the store fails.
* Go `int` arithmetic goes through `Env.intWrap`, which is the identity for ideal integers
  (`idealInt`) and the two's complement reduction for 64-bit machine integers (`wrap64`).
-/

namespace AssetCC

/-! ## Data model -/

/-- Go struct `Asset`. -/
structure Asset where
  ISIN : String
  CompanyName : String
  AssetType : String
  TotalUnits : Int
  PricePerUnit : Int
  AvailableUnits : Int
  MaxAllowedUnits : Int
  MinRedeemUnits : Int
  LockInPeriodDays : Int
deriving DecidableEq, Repr

/-- Go struct `Holding`. -/
structure Holding where
  ISIN : String
  Units : Int
  SubscribedTimeStamp : String
deriving DecidableEq, Repr

/-- Go type `map[string]Holding` (non-nil). -/
abbrev HoldingMap := AList (fun _ : String => Holding)

/-- Go struct `Investor`; `Holdings = none` is the nil map. -/
structure Investor where
  InvestorID : String
  Balance : Int
  Holdings : Option HoldingMap
deriving DecidableEq

/-- Go struct `AssetSubscription`, the event payload. -/
structure AssetSubscription where
  ISIN : String
  InvestorID : String
  Units : Int
  Timestamp : String
deriving DecidableEq, Repr

/-- A value stored in the world state: the JSON bytes of an asset or of an investor. -/
inductive Record where
  | asset (a : Asset)
  | investor (i : Investor)
deriving DecidableEq

/-- The world state. -/
abbrev Store := AList (fun _ : String => Record)

/-- The zero value of `Asset`. -/
def zeroAsset : Asset :=
  { ISIN := "", CompanyName := "", AssetType := "", TotalUnits := 0, PricePerUnit := 0,
    AvailableUnits := 0, MaxAllowedUnits := 0, MinRedeemUnits := 0, LockInPeriodDays := 0 }

/-- The zero value of `Holding`, which indexing a Go map yields for a missing key. -/
def zeroHolding : Holding := { ISIN := "", Units := 0, SubscribedTimeStamp := "" }

/-- The zero value of `Investor`. -/
def zeroInvestor : Investor := { InvestorID := "", Balance := 0, Holdings := none }

/-- Decoding `json.Unmarshal(bytes, &asset)` of a stored value. -/
def unmarshalAsset : Record → Asset
  | .asset a => a
  | .investor _ => zeroAsset

/-- Decoding `json.Unmarshal(bytes, &investor)` of a stored value. -/
def unmarshalInvestor : Record → Investor
  | .investor i => i
  | .asset _ => zeroInvestor

/-- Go map indexing `m[k]` on a possibly nil map: the zero value when the key is missing. -/
def holdingAt (m : Option HoldingMap) (k : String) : Holding :=
  match m with
  | none => zeroHolding
  | some hm => (hm.lookup k).getD zeroHolding

/-- The error returns of the contract, one per `fmt.Errorf` site that can be reached. -/
inductive Err where
  | getInvestorFailed      -- "failed to get investor details"
  | getAssetFailed         -- "failed to get asset details"
  | investorExists         -- "investor already exist"
  | assetExists            -- "Asset already exist"
  | putInvestorFailed      -- "failed to put investor to world state"
  | putAssetFailed         -- "failed to put asset to world state"
  | investorNotFound       -- "investorID %s is not valid investor"
  | assetNotFound          -- "Asset not found for ISIN %v"
  | orderTooLarge          -- "units request should be less than MaxAllowedUnits %v"
  | insufficientSupply     -- "insufficient assest available units"
  | insufficientBalance    -- "insufficient investor balance"
  | updateAssetFailed      -- "failed to update asset to world state"
  | updateInvestorFailed   -- "failed to update investor to world state"
  | noHoldings             -- "no holdings available for this user"
  | insufficientHoldings   -- "insufficient holdings for redeem"
  | malformedTimestamp     -- "failed to parse SubscribedTimeStamp"
  | lockInActive           -- "redeem is not allowed in lock in period"
  | belowMinRedeem         -- "minimum redeem units should be %v"
deriving DecidableEq, Repr

/-- The business-rule rejections, as opposed to failures of the store. -/
def Err.isValidation : Err → Bool
  | .investorExists | .assetExists | .investorNotFound | .assetNotFound | .orderTooLarge
  | .insufficientSupply | .insufficientBalance | .noHoldings | .insufficientHoldings
  | .malformedTimestamp | .lockInActive | .belowMinRedeem => true
  | _ => false

/-- What the contract uses of the transaction stub, of `time` and of `int` arithmetic. -/
structure Env where
  /-- reduction applied to the result of every `int` operation -/
  intWrap : Int → Int
  /-- transaction timestamp `GetTxTimestamp().AsTime()`, in nanoseconds -/
  txTimestamp : Int
  /-- wall clock `time.Now()`, in nanoseconds -/
  now : Int
  /-- printer `Time.String` -/
  timeString : Int → String
  /-- parser `time.Parse` with the layout of `Time.String` -/
  timeParse : String → Option Int
  /-- whether `GetState` of a key returns an error -/
  getFails : String → Bool
  /-- whether `PutState` of a value under a key returns an error -/
  putFails : String → Record → Bool

/-- Ideal (unbounded) integer arithmetic. -/
def idealInt (x : Int) : Int := x

/-- Two's complement reduction to 64 bits. -/
def wrap64 (x : Int) : Int := (x + 2 ^ 63) % 2 ^ 64 - 2 ^ 63

/-- The environment computes with ideal integers. -/
def Env.Ideal (env : Env) : Prop := ∀ x, env.intWrap x = x

/-- Every read and every write of the store succeeds. -/
def Env.Reliable (env : Env) : Prop :=
  (∀ k, env.getFails k = false) ∧ (∀ k v, env.putFails k v = false)

/-- Saturation of a `time.Duration` (an `int64` count of nanoseconds). -/
def satDuration (d : Int) : Int := max (-(2 ^ 63)) (min (2 ^ 63 - 1) d)

/-- Go `time.Since(ts)`: the saturated difference between the wall clock and `ts`. -/
def timeSince (env : Env) (ts : Int) : Int := satDuration (env.now - ts)

/-- The result of a contract call: the returned error, the store with the writes that were
performed, and the event that was set. -/
structure Outcome where
  err : Option Err
  store : Store
  event : Option (String × AssetSubscription)

/-- Return an error from a state in which `st` is the store. -/
def fail (e : Err) (st : Store) : Outcome := { err := some e, store := st, event := none }

/-! ## The contract methods -/

/-- Method `CreateUser(ctx, investorID, balance)`. -/
def CreateUser (env : Env) (st : Store) (investorID : String) (balance : Int) : Outcome :=
  if env.getFails investorID then fail .getInvestorFailed st
  else
    match st.lookup investorID with
    | some _ => fail .investorExists st
    | none =>
      let investor : Investor :=
        { InvestorID := investorID, Balance := balance, Holdings := none }
      if env.putFails investor.InvestorID (.investor investor) then fail .putInvestorFailed st
      else { err := none, store := st.insert investor.InvestorID (.investor investor),
             event := none }

/-- Method `RegisterAsset(ctx, isin, companyName, assetType, totalUnits, pricePerUnit,
maxAllowedUnits, minRedeemUnits, lockInPeriodDays)`. -/
def RegisterAsset (env : Env) (st : Store) (isin companyName assetType : String)
    (totalUnits pricePerUnit maxAllowedUnits minRedeemUnits lockInPeriodDays : Int) :
    Outcome :=
  if env.getFails isin then fail .getAssetFailed st
  else
    match st.lookup isin with
    | some _ => fail .assetExists st
    | none =>
      let asset : Asset :=
        { ISIN := isin, CompanyName := companyName, AssetType := assetType,
          TotalUnits := totalUnits, PricePerUnit := pricePerUnit,
          AvailableUnits := totalUnits, MaxAllowedUnits := maxAllowedUnits,
          MinRedeemUnits := minRedeemUnits, LockInPeriodDays := lockInPeriodDays }
      if env.putFails asset.ISIN (.asset asset) then fail .putAssetFailed st
      else { err := none, store := st.insert asset.ISIN (.asset asset), event := none }

/-- Method `SubscribeAsset(ctx, isin, unitsNeeded, investorID)`. -/
def SubscribeAsset (env : Env) (st : Store) (isin : String) (unitsNeeded : Int)
    (investorID : String) : Outcome :=
  if env.getFails investorID then fail .getInvestorFailed st
  else
    match st.lookup investorID with
    | none => fail .investorNotFound st
    | some investorBytes =>
      if env.getFails isin then fail .getAssetFailed st
      else
        match st.lookup isin with
        | none => fail .assetNotFound st
        | some assetBytes =>
          let asset := unmarshalAsset assetBytes
          let investor := unmarshalInvestor investorBytes
          if asset.MaxAllowedUnits < unitsNeeded then fail .orderTooLarge st
          else if asset.AvailableUnits < unitsNeeded then fail .insufficientSupply st
          else
            let priceForRequestedUnits := env.intWrap (unitsNeeded * asset.PricePerUnit)
            if investor.Balance < priceForRequestedUnits then fail .insufficientBalance st
            else
              let asset1 : Asset :=
                { asset with
                  AvailableUnits := env.intWrap (asset.AvailableUnits - unitsNeeded) }
              if env.putFails asset1.ISIN (.asset asset1) then fail .updateAssetFailed st
              else
                let st1 := st.insert asset1.ISIN (.asset asset1)
                let holdings : HoldingMap := investor.Holdings.getD ∅
                let subscribedTS := env.timeString env.txTimestamp
                let holding := (holdings.lookup isin).getD zeroHolding
                let holding1 : Holding :=
                  { ISIN := isin, Units := env.intWrap (holding.Units + unitsNeeded),
                    SubscribedTimeStamp := subscribedTS }
                let investor1 : Investor :=
                  { investor with
                    Balance := env.intWrap (investor.Balance - priceForRequestedUnits),
                    Holdings := some (holdings.insert isin holding1) }
                if env.putFails investorID (.investor investor1) then
                  fail .updateInvestorFailed st1
                else
                  { err := none, store := st1.insert investorID (.investor investor1),
                    event := some ("AssetSubscribed",
                      { ISIN := isin, InvestorID := investorID, Units := unitsNeeded,
                        Timestamp := subscribedTS }) }

/-- Method `RedeemAsset(ctx, isin, unitsNeeded, investorID)`. -/
def RedeemAsset (env : Env) (st : Store) (isin : String) (unitsNeeded : Int)
    (investorID : String) : Outcome :=
  if env.getFails investorID then fail .getInvestorFailed st
  else
    match st.lookup investorID with
    | none => fail .investorNotFound st
    | some investorBytes =>
      if env.getFails isin then fail .getAssetFailed st
      else
        match st.lookup isin with
        | none => fail .assetNotFound st
        | some assetBytes =>
          let asset := unmarshalAsset assetBytes
          let investor := unmarshalInvestor investorBytes
          match investor.Holdings with
          | none => fail .noHoldings st
          | some holdingsMap =>
            let held := (holdingsMap.lookup isin).getD zeroHolding
            if held.Units < unitsNeeded then fail .insufficientHoldings st
            else
              match env.timeParse held.SubscribedTimeStamp with
              | none => fail .malformedTimestamp st
              | some ts =>
                if timeSince env ts < asset.LockInPeriodDays then fail .lockInActive st
                else if unitsNeeded < asset.MinRedeemUnits then fail .belowMinRedeem st
                else
                  let asset1 : Asset :=
                    { asset with
                      AvailableUnits := env.intWrap (asset.AvailableUnits + unitsNeeded) }
                  if env.putFails asset1.ISIN (.asset asset1) then fail .updateAssetFailed st
                  else
                    let st1 := st.insert asset1.ISIN (.asset asset1)
                    let priceForRequestedUnits :=
                      env.intWrap (unitsNeeded * asset.PricePerUnit)
                    let holdings1 : Holding :=
                      { held with Units := env.intWrap (held.Units - unitsNeeded) }
                    let investor1 : Investor :=
                      { investor with
                        Holdings := some (holdingsMap.insert isin holdings1),
                        Balance := env.intWrap (investor.Balance + priceForRequestedUnits) }
                    if env.putFails investorID (.investor investor1) then
                      fail .updateInvestorFailed st1
                    else
                      { err := none, store := st1.insert investorID (.investor investor1),
                        event := some ("AssetRedeemed",
                          { ISIN := isin, InvestorID := investorID, Units := unitsNeeded,
                            Timestamp := env.timeString env.txTimestamp }) }

/-- Method `GetPortfolio(ctx, investorID)`: the returned map, or the error. -/
def GetPortfolio (env : Env) (st : Store) (investorID : String) :
    Except Err (Option HoldingMap) :=
  if env.getFails investorID then .error .getInvestorFailed
  else
    match st.lookup investorID with
    | none => .error .investorNotFound
    | some investorBytes => .ok (unmarshalInvestor investorBytes).Holdings

/-! ## Calls and reachable stores -/

/-- A call of one of the five contract methods, with its arguments. -/
inductive Call where
  | createUser (investorID : String) (balance : Int)
  | registerAsset (isin companyName assetType : String)
      (totalUnits pricePerUnit maxAllowedUnits minRedeemUnits lockInPeriodDays : Int)
  | subscribeAsset (isin : String) (unitsNeeded : Int) (investorID : String)
  | redeemAsset (isin : String) (unitsNeeded : Int) (investorID : String)
  | getPortfolio (investorID : String)

/-- The outcome of a call.  `GetPortfolio` has no access to `PutState` or `SetEvent`. -/
def exec (env : Env) (st : Store) : Call → Outcome
  | .createUser investorID balance => CreateUser env st investorID balance
  | .registerAsset isin companyName assetType totalUnits pricePerUnit maxAllowedUnits
      minRedeemUnits lockInPeriodDays =>
    RegisterAsset env st isin companyName assetType totalUnits pricePerUnit maxAllowedUnits
      minRedeemUnits lockInPeriodDays
  | .subscribeAsset isin unitsNeeded investorID =>
    SubscribeAsset env st isin unitsNeeded investorID
  | .redeemAsset isin unitsNeeded investorID => RedeemAsset env st isin unitsNeeded investorID
  | .getPortfolio investorID =>
    match GetPortfolio env st investorID with
    | .ok _ => { err := none, store := st, event := none }
    | .error e => fail e st

/-- The stores obtained from `s0` by a sequence of calls, each made in an environment and
with arguments that `ok` admits in the store it is made in. -/
inductive ReachableFrom (ok : Env → Store → Call → Prop) (s0 : Store) : Store → Prop where
  | refl : ReachableFrom ok s0 s0
  | step {st : Store} (env : Env) (c : Call) :
      ReachableFrom ok s0 st → ok env st c → ReachableFrom ok s0 (exec env st c).store

/-- The stores reachable from the empty store. -/
def Reachable (ok : Env → Store → Call → Prop) (st : Store) : Prop :=
  ReachableFrom ok ∅ st

/-- The `isin` argument of the call, when it has one, is not the key of an investor record. -/
def Call.OnAsset (st : Store) : Call → Prop
  | .subscribeAsset isin _ _ => ∀ i, st.lookup isin ≠ some (.investor i)
  | .redeemAsset isin _ _ => ∀ i, st.lookup isin ≠ some (.investor i)
  | _ => True

/-- The unit counts passed to the call are not negative. -/
def Call.NonNegUnits : Call → Prop
  | .registerAsset _ _ _ totalUnits _ _ _ _ => 0 ≤ totalUnits
  | .subscribeAsset _ unitsNeeded _ => 0 ≤ unitsNeeded
  | .redeemAsset _ unitsNeeded _ => 0 ≤ unitsNeeded
  | _ => True

/-- The units of `isin` that a stored value holds as an investor record. -/
def unitsHeld (r : Record) (isin : String) : Int :=
  (holdingAt (unmarshalInvestor r).Holdings isin).Units

/-- The sum, over all stored records, of the units of `isin` held. -/
def holdingSum (st : Store) (isin : String) : Int :=
  (st.entries.map (fun e => unitsHeld e.2 isin)).sum

/-- Conservation for the asset stored at `isin`. -/
def Conserved (st : Store) (isin : String) : Prop :=
  ∀ a, st.lookup isin = some (.asset a) → a.AvailableUnits + holdingSum st isin = a.TotalUnits

/-- The asset record that `SubscribeAsset` writes. -/
def subscribedAsset (env : Env) (a : Asset) (u : Int) : Asset :=
  { a with AvailableUnits := env.intWrap (a.AvailableUnits - u) }

/-- The investor record that `SubscribeAsset` writes. -/
def subscribedInvestor (env : Env) (i : Investor) (a : Asset) (isin : String) (u : Int) :
    Investor :=
  { i with
    Balance := env.intWrap (i.Balance - env.intWrap (u * a.PricePerUnit)),
    Holdings := some ((i.Holdings.getD ∅).insert isin
      { ISIN := isin, Units := env.intWrap ((holdingAt i.Holdings isin).Units + u),
        SubscribedTimeStamp := env.timeString env.txTimestamp }) }

/-- The asset record that `RedeemAsset` writes. -/
def redeemedAsset (env : Env) (a : Asset) (u : Int) : Asset :=
  { a with AvailableUnits := env.intWrap (a.AvailableUnits + u) }

/-- The investor record that `RedeemAsset` writes. -/
def redeemedInvestor (env : Env) (i : Investor) (a : Asset) (isin : String) (u : Int) :
    Investor :=
  { i with
    Balance := env.intWrap (i.Balance + env.intWrap (u * a.PricePerUnit)),
    Holdings := some ((i.Holdings.getD ∅).insert isin
      { holdingAt i.Holdings isin with
        Units := env.intWrap ((holdingAt i.Holdings isin).Units - u) }) }

/-- The structural invariant of the ledger: every asset record is stored under its own
identifier, nobody holds units of a key under which nothing is stored, and the units of every
stored asset are conserved. -/
structure LedgerInv (st : Store) : Prop where
  keyed : ∀ k a, st.lookup k = some (.asset a) → a.ISIN = k
  noOrphan : ∀ isin, st.lookup isin = none → ∀ k r, st.lookup k = some r → unitsHeld r isin = 0
  conserved : ∀ k, Conserved st k

/-- No asset has a negative number of available units and no holding is negative. -/
structure SignInv (st : Store) : Prop where
  avail : ∀ k a, st.lookup k = some (.asset a) → 0 ≤ a.AvailableUnits
  held : ∀ k r isin, st.lookup k = some r → 0 ≤ unitsHeld r isin

/-- The balance and price arguments of the call, and the units of a redemption, are not
negative. -/
def Call.NonNegMoney : Call → Prop
  | .createUser _ balance => 0 ≤ balance
  | .registerAsset _ _ _ _ pricePerUnit _ _ _ => 0 ≤ pricePerUnit
  | .redeemAsset _ unitsNeeded _ => 0 ≤ unitsNeeded
  | _ => True

/-- No asset has a negative price and no investor a negative balance. -/
structure MoneyInv (st : Store) : Prop where
  price : ∀ k a, st.lookup k = some (.asset a) → 0 ≤ a.PricePerUnit
  balance : ∀ k i, st.lookup k = some (.investor i) → 0 ≤ i.Balance

/-- The entry of a possibly nil holdings map under a key, if there is one. -/
def holdingEntry (m : Option HoldingMap) (k : String) : Option Holding :=
  match m with
  | none => none
  | some hm => hm.lookup k

/-- The order of the checks of a subscription, as the specification lists them: investor
record present, asset record present, order within the cap, order within the supply, balance
covering the price. -/
def subscribeVerdict (st : Store) (isin : String) (units : Int) (investorID : String) :
    Option Err :=
  match st.lookup investorID with
  | none => some .investorNotFound
  | some ri =>
    match st.lookup isin with
    | none => some .assetNotFound
    | some ra =>
      if units > (unmarshalAsset ra).MaxAllowedUnits then some .orderTooLarge
      else if units > (unmarshalAsset ra).AvailableUnits then some .insufficientSupply
      else if (unmarshalInvestor ri).Balance < units * (unmarshalAsset ra).PricePerUnit then
        some .insufficientBalance
      else none

/-! ## A sample environment and the scenarios of the specification -/

/-- The value of a string of decimal digits. -/
def digitsValue : List Char → Nat → Option Nat
  | [], acc => some acc
  | c :: cs, acc => if c.isDigit then digitsValue cs (10 * acc + (c.toNat - 48)) else none

/-- A timestamp parser for the sample environment: a non-empty string of decimal digits. -/
def decimalParse (s : String) : Option Int :=
  match s.data with
  | [] => none
  | cs => (digitsValue cs 0).map Int.ofNat

/-- A sample environment: ideal integers, a reliable store, and timestamps printed as their
count of nanoseconds in decimal. -/
def sampleEnv (txTimestamp now : Int) : Env :=
  { intWrap := idealInt, txTimestamp := txTimestamp, now := now,
    timeString := fun t => toString t.toNat, timeParse := decimalParse,
    getFails := fun _ => false, putFails := fun _ _ => false }

/-- Scenario A, first step: investor `inv1` with balance 1000. -/
def storeA1 : Store := (exec (sampleEnv 0 0) ∅ (.createUser "inv1" 1000)).store

/-- Scenario A, second step: asset `A1` with total 100, price 10, cap 50, minimum redemption 5
and no lock-in. -/
def storeA2 : Store :=
  (exec (sampleEnv 0 0) storeA1 (.registerAsset "A1" "Acme" "bond" 100 10 50 5 0)).store

/-- Scenario A: `inv1` subscribes 20 units of `A1` at time 7. -/
def storeA : Store := (exec (sampleEnv 7 7) storeA2 (.subscribeAsset "A1" 20 "inv1")).store

/-- The asset record after scenario A. -/
def assetA : Asset :=
  { ISIN := "A1", CompanyName := "Acme", AssetType := "bond", TotalUnits := 100,
    PricePerUnit := 10, AvailableUnits := 80, MaxAllowedUnits := 50, MinRedeemUnits := 5,
    LockInPeriodDays := 0 }

/-- The investor record after scenario A. -/
def investorA : Investor :=
  { InvestorID := "inv1", Balance := 800,
    Holdings := some (AList.singleton "A1"
      { ISIN := "A1", Units := 20, SubscribedTimeStamp := "7" }) }

/-- The available and the total units of the asset stored under a key. -/
def unitsAt (st : Store) (k : String) : Option (Int × Int) :=
  (st.lookup k).map fun r => ((unmarshalAsset r).AvailableUnits, (unmarshalAsset r).TotalUnits)

/-- The balance of the investor stored under a key. -/
def balanceAt (st : Store) (k : String) : Option Int :=
  (st.lookup k).map fun r => (unmarshalInvestor r).Balance

/-- Scenario D: after scenario A, `inv1` redeems 10 units of `A1` at time 9. -/
def storeD : Store := (exec (sampleEnv 9 9) storeA (.redeemAsset "A1" 10 "inv1")).store

/-- Investor `inv1` holds 20 units of an asset `L1` with a lock-in period of 7 (days),
subscribed at time 1000 (nanoseconds). -/
def storeL : Store :=
  let s1 := (exec (sampleEnv 0 0) ∅ (.createUser "inv1" 1000)).store
  let s2 := (exec (sampleEnv 0 0) s1 (.registerAsset "L1" "Lock" "bond" 100 10 50 5 7)).store
  (exec (sampleEnv 1000 1000) s2 (.subscribeAsset "L1" 20 "inv1")).store

/-- After scenario A, `inv1` subscribes 5 more units of `A1` at time 8. -/
def storeA5 : Store := (exec (sampleEnv 8 8) storeA (.subscribeAsset "A1" 5 "inv1")).store

/-- The holding of `isin` in the investor record stored under a key. -/
def holdingOf (st : Store) (k isin : String) : Option Holding :=
  (st.lookup k).bind fun r => holdingEntry (unmarshalInvestor r).Holdings isin

/-- After scenario A, a second asset `B1` (total 10, price 10, cap 50, minimum redemption 5)
is registered: `inv1` holds `A1` but has no entry for `B1`. -/
def storeAB : Store :=
  (exec (sampleEnv 8 8) storeA (.registerAsset "B1" "Bolt" "bond" 10 10 50 5 0)).store

/-- Every asset record is stored under its own identifier. -/
def KeyedAssets (st : Store) : Prop := ∀ k a, st.lookup k = some (.asset a) → a.ISIN = k

/-- The `investorID` argument of a subscription is not the key of an asset record. -/
def Call.InvestorNotAsset (st : Store) : Call → Prop
  | .subscribeAsset _ _ investorID => ∀ a, st.lookup investorID ≠ some (.asset a)
  | _ => True

/-- The calls under which the asset record at `k` is kept: no subscription whose `investorID`
names an asset record and, when `k` is the empty key, no call whose `isin` names an investor
record. -/
def keepsAsset (k : String) (_env : Env) (st : Store) (c : Call) : Prop :=
  c.InvestorNotAsset st ∧ (k = "" → c.OnAsset st)

/-- The two asset records agree on every field but `AvailableUnits`. -/
def Asset.SameIssue (a a' : Asset) : Prop :=
  a'.ISIN = a.ISIN ∧ a'.CompanyName = a.CompanyName ∧ a'.AssetType = a.AssetType ∧
  a'.TotalUnits = a.TotalUnits ∧ a'.PricePerUnit = a.PricePerUnit ∧
  a'.MaxAllowedUnits = a.MaxAllowedUnits ∧ a'.MinRedeemUnits = a.MinRedeemUnits ∧
  a'.LockInPeriodDays = a.LockInPeriodDays

/-- After the first two steps of scenario A, a subscription of 0 units of `A1` whose
`investorID` is the asset key `A1` itself. -/
def storeOverwritten : Store :=
  (exec (sampleEnv 8 8) storeA2 (.subscribeAsset "A1" 0 "A1")).store

/-- The sample environment with a store that refuses every write under the key `inv1`. -/
def flakyEnv (txTimestamp now : Int) : Env :=
  { sampleEnv txTimestamp now with putFails := fun k _ => k == "inv1" }

/-- The sample environment with 64-bit machine integers. -/
def env64 (txTimestamp now : Int) : Env :=
  { sampleEnv txTimestamp now with intWrap := wrap64 }

/-- Investor `inv1` with balance 0 and an asset `W1` with total `2^33`, price `2^32`, cap
`2^32` and minimum redemption 1, all within the range of `int64`. -/
def store64 : Store :=
  let s1 := (exec (env64 0 0) ∅ (.createUser "inv1" 0)).store
  (exec (env64 0 0) s1
    (.registerAsset "W1" "Wide" "bond" 8589934592 4294967296 4294967296 1 0)).store

/-- In a subscription or redemption the `isin` argument is not the key of an investor record
and the `investorID` argument is not the key of an asset record. -/
def Call.Disjoint (st : Store) : Call → Prop
  | .subscribeAsset isin _ investorID =>
    (∀ i, st.lookup isin ≠ some (.investor i)) ∧ (∀ a, st.lookup investorID ≠ some (.asset a))
  | .redeemAsset isin _ investorID =>
    (∀ i, st.lookup isin ≠ some (.investor i)) ∧ (∀ a, st.lookup investorID ≠ some (.asset a))
  | _ => True

/-- The numeric arguments that the invariant needs to be non-negative are so: the balance of
`CreateUser`; the total, price and minimum redemption of `RegisterAsset`; the units of
`SubscribeAsset` and `RedeemAsset`. -/
def Call.NonNegArgs : Call → Prop
  | .createUser _ balance => 0 ≤ balance
  | .registerAsset _ _ _ totalUnits pricePerUnit _ minRedeemUnits _ =>
    0 ≤ totalUnits ∧ 0 ≤ pricePerUnit ∧ 0 ≤ minRedeemUnits
  | .subscribeAsset _ unitsNeeded _ => 0 ≤ unitsNeeded
  | .redeemAsset _ unitsNeeded _ => 0 ≤ unitsNeeded
  | .getPortfolio _ => True

/-- Calls with non-negative arguments and disjoint investor and asset keys, computed with
ideal integers on a reliable store. -/
def admissibleCall (env : Env) (st : Store) (c : Call) : Prop :=
  env.Ideal ∧ env.Reliable ∧ c.Disjoint st ∧ c.NonNegArgs

/-- The invariant of claim C19. -/
structure FullInv (st : Store) : Prop where
  assets : ∀ k a, st.lookup k = some (.asset a) →
    0 ≤ a.AvailableUnits ∧ a.AvailableUnits ≤ a.TotalUnits ∧ 0 ≤ a.PricePerUnit ∧
      0 ≤ a.MinRedeemUnits
  balance : ∀ k i, st.lookup k = some (.investor i) → 0 ≤ i.Balance
  holdings : ∀ k i x h, st.lookup k = some (.investor i) →
    holdingEntry i.Holdings x = some h → 0 ≤ h.Units
  conserved : ∀ k a, st.lookup k = some (.asset a) →
    a.AvailableUnits + holdingSum st k = a.TotalUnits

/-- The value lies in the range of `int64`. -/
def IsInt64 (x : Int) : Prop := -(2 ^ 63) ≤ x ∧ x < 2 ^ 63

/-- With machine integers: after the first two steps of scenario A, the subscription of 20
units of `A1` at time 7 followed by the redemption of the same 20 units at time 9. -/
def storeRound : Store :=
  (exec (env64 9 9) (exec (env64 7 7) storeA2 (.subscribeAsset "A1" 20 "inv1")).store
    (.redeemAsset "A1" 20 "inv1")).store

/-- The environment computes with 64-bit machine integers. -/
def Env.Machine (env : Env) : Prop := ∀ x, env.intWrap x = wrap64 x

/-- With machine integers: investor `inv1` with balance 0 and an asset `M1` whose total and
cap are the largest `int64`, at price 3074457345618258603. -/
def storeM0 : Store :=
  let s1 := (exec (env64 0 0) ∅ (.createUser "inv1" 0)).store
  (exec (env64 0 0) s1
    (.registerAsset "M1" "Max" "bond" 9223372036854775807 3074457345618258603
      9223372036854775807 0 0)).store

/-- After `storeM0`, `inv1` subscribes -1 units of `M1`. -/
def storeM1 : Store := (exec (env64 7 7) storeM0 (.subscribeAsset "M1" (-1) "inv1")).store

/-- After `storeM1`, `inv1` subscribes the smallest `int64` as units of `M1`. -/
def storeM2 : Store :=
  (exec (env64 8 8) storeM1 (.subscribeAsset "M1" (-9223372036854775808) "inv1")).store

/-- After `store64`, `inv1` has subscribed `2^32` units of `W1` at price `2^32`. -/
def store64s : Store :=
  (exec (env64 7 7) store64 (.subscribeAsset "W1" 4294967296 "inv1")).store

/-- A store in which `inv1` holds 5 units of `Z1` although nothing is stored under `Z1`. -/
def storeOrphan : Store :=
  (∅ : Store).insert "inv1"
    (.investor
      { InvestorID := "inv1", Balance := 0,
        Holdings := some ((∅ : HoldingMap).insert "Z1"
          { ISIN := "Z1", Units := 5, SubscribedTimeStamp := "7" }) })

/-- The order of the checks of a subscription with the price computed as the contract
computes it, in `int` arithmetic. -/
def subscribeVerdictInt (env : Env) (st : Store) (isin : String) (units : Int)
    (investorID : String) : Option Err :=
  match st.lookup investorID with
  | none => some .investorNotFound
  | some ri =>
    match st.lookup isin with
    | none => some .assetNotFound
    | some ra =>
      if units > (unmarshalAsset ra).MaxAllowedUnits then some .orderTooLarge
      else if units > (unmarshalAsset ra).AvailableUnits then some .insufficientSupply
      else if (unmarshalInvestor ri).Balance
          < env.intWrap (units * (unmarshalAsset ra).PricePerUnit) then
        some .insufficientBalance
      else none

/-! ## Basic facts -/

theorem holdingAt_none (k : String) : holdingAt none k = zeroHolding := rfl

theorem holdingAt_getD (m : Option HoldingMap) (k : String) :
    ((m.getD ∅).lookup k).getD zeroHolding = holdingAt m k := by
  cases m <;> simp [holdingAt]

/-- Successful `SubscribeAsset`: the checks that passed and the two writes. -/
theorem SubscribeAsset_ok {env : Env} {st : Store} {isin investorID : String} {u : Int}
    (h : (SubscribeAsset env st isin u investorID).err = none) :
    ∃ ri ra, st.lookup investorID = some ri ∧ st.lookup isin = some ra ∧
      u ≤ (unmarshalAsset ra).MaxAllowedUnits ∧ u ≤ (unmarshalAsset ra).AvailableUnits ∧
      env.intWrap (u * (unmarshalAsset ra).PricePerUnit) ≤ (unmarshalInvestor ri).Balance ∧
      (SubscribeAsset env st isin u investorID).store =
        (st.insert (unmarshalAsset ra).ISIN
          (.asset (subscribedAsset env (unmarshalAsset ra) u))).insert investorID
          (.investor (subscribedInvestor env (unmarshalInvestor ri) (unmarshalAsset ra)
            isin u)) ∧
      (SubscribeAsset env st isin u investorID).event =
        some ("AssetSubscribed",
          { ISIN := isin, InvestorID := investorID, Units := u,
            Timestamp := env.timeString env.txTimestamp }) := by
  by_cases hg1 : env.getFails investorID = true
  · simp [SubscribeAsset, hg1, fail] at h
  cases hri : st.lookup investorID with
  | none => simp [SubscribeAsset, hg1, hri, fail] at h
  | some ri =>
    by_cases hg2 : env.getFails isin = true
    · simp [SubscribeAsset, hg1, hri, hg2, fail] at h
    cases hra : st.lookup isin with
    | none => simp [SubscribeAsset, hg1, hri, hg2, hra, fail] at h
    | some ra =>
      by_cases h2 : (unmarshalAsset ra).MaxAllowedUnits < u
      · simp [SubscribeAsset, hg1, hri, hg2, hra, h2, fail] at h
      by_cases h3 : (unmarshalAsset ra).AvailableUnits < u
      · simp [SubscribeAsset, hg1, hri, hg2, hra, h2, h3, fail] at h
      by_cases h4 : (unmarshalInvestor ri).Balance <
          env.intWrap (u * (unmarshalAsset ra).PricePerUnit)
      · simp [SubscribeAsset, hg1, hri, hg2, hra, h2, h3, h4, fail] at h
      by_cases h5 : env.putFails (unmarshalAsset ra).ISIN
          (.asset (subscribedAsset env (unmarshalAsset ra) u)) = true
      · simp only [subscribedAsset] at h5
        simp [SubscribeAsset, hg1, hri, hg2, hra, h2, h3, h4, h5, fail] at h
      by_cases h6 : env.putFails investorID
          (.investor (subscribedInvestor env (unmarshalInvestor ri) (unmarshalAsset ra)
            isin u)) = true
      · simp only [subscribedAsset, subscribedInvestor, ← holdingAt_getD] at h5 h6
        simp [SubscribeAsset, hg1, hri, hg2, hra, h2, h3, h4, h5, h6, fail] at h
      refine ⟨ri, ra, rfl, rfl, not_lt.mp h2, not_lt.mp h3, not_lt.mp h4, ?_⟩
      simp only [subscribedAsset, subscribedInvestor, ← holdingAt_getD] at h5 h6 ⊢
      simp [SubscribeAsset, hg1, hri, hg2, hra, h2, h3, h4, h5, h6]

/-- Successful `RedeemAsset`: the checks that passed and the two writes. -/
theorem RedeemAsset_ok {env : Env} {st : Store} {isin investorID : String} {u : Int}
    (h : (RedeemAsset env st isin u investorID).err = none) :
    ∃ ri ra hm ts, st.lookup investorID = some ri ∧ st.lookup isin = some ra ∧
      (unmarshalInvestor ri).Holdings = some hm ∧
      u ≤ (holdingAt (unmarshalInvestor ri).Holdings isin).Units ∧
      env.timeParse (holdingAt (unmarshalInvestor ri).Holdings isin).SubscribedTimeStamp
        = some ts ∧
      (unmarshalAsset ra).LockInPeriodDays ≤ timeSince env ts ∧
      (unmarshalAsset ra).MinRedeemUnits ≤ u ∧
      (RedeemAsset env st isin u investorID).store =
        (st.insert (unmarshalAsset ra).ISIN
          (.asset (redeemedAsset env (unmarshalAsset ra) u))).insert investorID
          (.investor (redeemedInvestor env (unmarshalInvestor ri) (unmarshalAsset ra)
            isin u)) ∧
      (RedeemAsset env st isin u investorID).event =
        some ("AssetRedeemed",
          { ISIN := isin, InvestorID := investorID, Units := u,
            Timestamp := env.timeString env.txTimestamp }) := by
  by_cases hg1 : env.getFails investorID = true
  · simp [RedeemAsset, hg1, fail] at h
  cases hri : st.lookup investorID with
  | none => simp [RedeemAsset, hg1, hri, fail] at h
  | some ri =>
    by_cases hg2 : env.getFails isin = true
    · simp [RedeemAsset, hg1, hri, hg2, fail] at h
    cases hra : st.lookup isin with
    | none => simp [RedeemAsset, hg1, hri, hg2, hra, fail] at h
    | some ra =>
      cases hhm : (unmarshalInvestor ri).Holdings with
      | none => simp [RedeemAsset, hg1, hri, hg2, hra, hhm, fail] at h
      | some hm =>
        have hat : (hm.lookup isin).getD zeroHolding = holdingAt (some hm) isin := rfl
        by_cases h2 : (holdingAt (some hm) isin).Units < u
        · simp [RedeemAsset, hg1, hri, hg2, hra, hhm, hat, h2, fail] at h
        cases hts : env.timeParse (holdingAt (some hm) isin).SubscribedTimeStamp with
        | none => simp [RedeemAsset, hg1, hri, hg2, hra, hhm, hat, h2, hts, fail] at h
        | some ts =>
          by_cases h3 : timeSince env ts < (unmarshalAsset ra).LockInPeriodDays
          · simp [RedeemAsset, hg1, hri, hg2, hra, hhm, hat, h2, hts, h3, fail] at h
          by_cases h4 : u < (unmarshalAsset ra).MinRedeemUnits
          · simp [RedeemAsset, hg1, hri, hg2, hra, hhm, hat, h2, hts, h3, h4, fail] at h
          by_cases h5 : env.putFails (unmarshalAsset ra).ISIN
              (.asset (redeemedAsset env (unmarshalAsset ra) u)) = true
          · simp only [redeemedAsset] at h5
            simp [RedeemAsset, hg1, hri, hg2, hra, hhm, hat, h2, hts, h3, h4, h5, fail] at h
          by_cases h6 : env.putFails investorID
              (.investor (redeemedInvestor env (unmarshalInvestor ri) (unmarshalAsset ra)
                isin u)) = true
          · simp only [redeemedAsset, redeemedInvestor, hhm, Option.getD_some] at h5 h6
            simp [RedeemAsset, hg1, hri, hg2, hra, hhm, hat, h2, hts, h3, h4, h5, h6,
              fail] at h
          refine ⟨ri, ra, hm, ts, rfl, rfl, hhm, ?_, ?_, not_lt.mp h3, not_lt.mp h4, ?_⟩
          · rw [hhm]; exact not_lt.mp h2
          · rw [hhm]; exact hts
          simp only [redeemedAsset, redeemedInvestor, hhm, Option.getD_some] at h5 h6 ⊢
          simp [RedeemAsset, hg1, hri, hg2, hra, hhm, hat, h2, hts, h3, h4, h5, h6]

/-- An unsuccessful `SubscribeAsset` sets no event, and has written nothing unless the write
of the investor record is what failed. -/
theorem SubscribeAsset_err (env : Env) (st : Store) (isin : String) (u : Int)
    (investorID : String) :
    (SubscribeAsset env st isin u investorID).err = none ∨
      ((SubscribeAsset env st isin u investorID).event = none ∧
        ((SubscribeAsset env st isin u investorID).store = st ∨
          (SubscribeAsset env st isin u investorID).err = some .updateInvestorFailed)) := by
  unfold SubscribeAsset
  repeat' split
  all_goals try simp only []
  all_goals repeat' split
  all_goals simp [fail]

/-- An unsuccessful `RedeemAsset` sets no event, and has written nothing unless the write of
the investor record is what failed. -/
theorem RedeemAsset_err (env : Env) (st : Store) (isin : String) (u : Int)
    (investorID : String) :
    (RedeemAsset env st isin u investorID).err = none ∨
      ((RedeemAsset env st isin u investorID).event = none ∧
        ((RedeemAsset env st isin u investorID).store = st ∨
          (RedeemAsset env st isin u investorID).err = some .updateInvestorFailed)) := by
  unfold RedeemAsset
  repeat' split
  all_goals try simp only []
  all_goals repeat' split
  all_goals simp [fail]

/-- Successful `CreateUser`: the key was free and one record was written. -/
theorem CreateUser_ok {env : Env} {st : Store} {investorID : String} {balance : Int}
    (h : (CreateUser env st investorID balance).err = none) :
    st.lookup investorID = none ∧
      (CreateUser env st investorID balance).store =
        st.insert investorID
          (.investor { InvestorID := investorID, Balance := balance, Holdings := none }) := by
  unfold CreateUser at h ⊢
  repeat' split
  all_goals try simp only [] at h ⊢
  all_goals repeat' split
  all_goals simp_all [fail]

/-- An unsuccessful `CreateUser` writes nothing; no `CreateUser` sets an event. -/
theorem CreateUser_err (env : Env) (st : Store) (investorID : String) (balance : Int) :
    ((CreateUser env st investorID balance).err = none ∨
      (CreateUser env st investorID balance).store = st) ∧
    (CreateUser env st investorID balance).event = none := by
  unfold CreateUser
  repeat' split
  all_goals try simp only []
  all_goals repeat' split
  all_goals simp [fail]

/-- Successful `RegisterAsset`: the key was free and one record was written. -/
theorem RegisterAsset_ok {env : Env} {st : Store} {isin companyName assetType : String}
    {total price maxUnits minRedeem lockIn : Int}
    (h : (RegisterAsset env st isin companyName assetType total price maxUnits minRedeem
      lockIn).err = none) :
    st.lookup isin = none ∧
      (RegisterAsset env st isin companyName assetType total price maxUnits minRedeem
        lockIn).store =
        st.insert isin
          (.asset { ISIN := isin, CompanyName := companyName, AssetType := assetType,
                    TotalUnits := total, PricePerUnit := price, AvailableUnits := total,
                    MaxAllowedUnits := maxUnits, MinRedeemUnits := minRedeem,
                    LockInPeriodDays := lockIn }) := by
  unfold RegisterAsset at h ⊢
  repeat' split
  all_goals try simp only [] at h ⊢
  all_goals repeat' split
  all_goals simp_all [fail]

/-- An unsuccessful `RegisterAsset` writes nothing; no `RegisterAsset` sets an event. -/
theorem RegisterAsset_err (env : Env) (st : Store) (isin companyName assetType : String)
    (total price maxUnits minRedeem lockIn : Int) :
    ((RegisterAsset env st isin companyName assetType total price maxUnits minRedeem
        lockIn).err = none ∨
      (RegisterAsset env st isin companyName assetType total price maxUnits minRedeem
        lockIn).store = st) ∧
    (RegisterAsset env st isin companyName assetType total price maxUnits minRedeem
        lockIn).event = none := by
  unfold RegisterAsset
  repeat' split
  all_goals try simp only []
  all_goals repeat' split
  all_goals simp [fail]

/-- In a reliable environment the write of the investor record does not fail. -/
theorem SubscribeAsset_reliable {env : Env} (hr : env.Reliable) (st : Store) (isin : String)
    (u : Int) (investorID : String) :
    (SubscribeAsset env st isin u investorID).err ≠ some .updateInvestorFailed := by
  unfold SubscribeAsset
  repeat' split
  all_goals try simp only []
  all_goals repeat' split
  all_goals simp_all [fail, hr.2]

/-- In a reliable environment the write of the investor record does not fail. -/
theorem RedeemAsset_reliable {env : Env} (hr : env.Reliable) (st : Store) (isin : String)
    (u : Int) (investorID : String) :
    (RedeemAsset env st isin u investorID).err ≠ some .updateInvestorFailed := by
  unfold RedeemAsset
  repeat' split
  all_goals try simp only []
  all_goals repeat' split
  all_goals simp_all [fail, hr.2]

/-- In a reliable environment a call that returns an error leaves the store as it was. -/
theorem exec_err_store {env : Env} (hr : env.Reliable) (st : Store) (c : Call)
    (h : (exec env st c).err ≠ none) : (exec env st c).store = st := by
  cases c with
  | createUser k b => exact ((CreateUser_err env st k b).1).resolve_left h
  | registerAsset k cn ty t p m r l =>
    exact ((RegisterAsset_err env st k cn ty t p m r l).1).resolve_left h
  | subscribeAsset k u i =>
    exact (((SubscribeAsset_err env st k u i).resolve_left h).2).resolve_right
      (SubscribeAsset_reliable hr st k u i)
  | redeemAsset k u i =>
    exact (((RedeemAsset_err env st k u i).resolve_left h).2).resolve_right
      (RedeemAsset_reliable hr st k u i)
  | getPortfolio i =>
    simp only [exec]
    split <;> rfl

/-! ## Sums of holdings -/

theorem sum_kerase (f : Record → Int) (k : String) :
    ∀ l : List (Sigma fun _ : String => Record),
      ((List.kerase k l).map (fun e => f e.2)).sum
        = (l.map (fun e => f e.2)).sum - ((List.dlookup k l).map f).getD 0
  | [] => by simp
  | ⟨a, b⟩ :: l => by
    by_cases hak : k = a
    · subst hak
      simp
    · have ih := sum_kerase f k l
      rw [List.kerase_cons_ne hak, List.dlookup_cons_ne _ _ hak]
      simp only [List.map_cons, List.sum_cons, ih]
      ring

/-- Writing a record changes the sum of holdings by what the record holds, less what the
overwritten record held. -/
theorem holdingSum_insert (st : Store) (k : String) (r : Record) (isin : String) :
    holdingSum (st.insert k r) isin
      = holdingSum st isin - ((st.lookup k).map (fun r0 => unitsHeld r0 isin)).getD 0
        + unitsHeld r isin := by
  unfold holdingSum
  rw [AList.insert_entries]
  simp only [List.map_cons, List.sum_cons]
  rw [sum_kerase (fun r0 => unitsHeld r0 isin) k st.entries]
  simp only [AList.lookup]
  ring

theorem unitsHeld_asset (a : Asset) (isin : String) : unitsHeld (.asset a) isin = 0 := rfl

theorem lookup_insert_eq (st : Store) (k k' : String) (r : Record) :
    (st.insert k r).lookup k' = if k' = k then some r else st.lookup k' := by
  by_cases h : k' = k
  · subst h
    simp
  · simp [h, AList.lookup_insert_ne h]

theorem holdingLookup_insert_eq (hm : HoldingMap) (k k' : String) (h : Holding) :
    (hm.insert k h).lookup k' = if k' = k then some h else hm.lookup k' := by
  by_cases hk : k' = k
  · subst hk
    simp
  · simp [hk, AList.lookup_insert_ne hk]

/-- The holdings of the investor record written by `SubscribeAsset`. -/
theorem holdingAt_subscribedInvestor (env : Env) (i : Investor) (a : Asset)
    (isin : String) (u : Int) (x : String) :
    holdingAt (subscribedInvestor env i a isin u).Holdings x
      = if x = isin then
          { ISIN := isin, Units := env.intWrap ((holdingAt i.Holdings isin).Units + u),
            SubscribedTimeStamp := env.timeString env.txTimestamp }
        else holdingAt i.Holdings x := by
  obtain ⟨id, b, hs⟩ := i
  by_cases hx : x = isin
  · simp [subscribedInvestor, holdingAt, holdingLookup_insert_eq, hx]
  · cases hs <;>
      simp [subscribedInvestor, holdingAt, holdingLookup_insert_eq, hx, -AList.insert_empty]

/-- The holdings of the investor record written by `RedeemAsset`. -/
theorem holdingAt_redeemedInvestor (env : Env) (i : Investor) (a : Asset)
    (isin : String) (u : Int) (x : String) :
    holdingAt (redeemedInvestor env i a isin u).Holdings x
      = if x = isin then
          { holdingAt i.Holdings isin with
            Units := env.intWrap ((holdingAt i.Holdings isin).Units - u) }
        else holdingAt i.Holdings x := by
  obtain ⟨id, b, hs⟩ := i
  by_cases hx : x = isin
  · simp [redeemedInvestor, holdingAt, holdingLookup_insert_eq, hx]
  · cases hs <;>
      simp [redeemedInvestor, holdingAt, holdingLookup_insert_eq, hx, -AList.insert_empty]

/-- What the investor record written by `SubscribeAsset` holds. -/
theorem unitsHeld_subscribedInvestor (env : Env) (hI : env.Ideal) (ri : Record) (a : Asset)
    (isin : String) (u : Int) (x : String) :
    unitsHeld (.investor (subscribedInvestor env (unmarshalInvestor ri) a isin u)) x
      = unitsHeld ri x + if x = isin then u else 0 := by
  simp only [unitsHeld, unmarshalInvestor, holdingAt_subscribedInvestor, hI _]
  by_cases hx : x = isin
  · simp [hx]
  · simp [hx]

/-- What the investor record written by `RedeemAsset` holds. -/
theorem unitsHeld_redeemedInvestor (env : Env) (hI : env.Ideal) (ri : Record) (a : Asset)
    (isin : String) (u : Int) (x : String) :
    unitsHeld (.investor (redeemedInvestor env (unmarshalInvestor ri) a isin u)) x
      = unitsHeld ri x + if x = isin then -u else 0 := by
  simp only [unitsHeld, unmarshalInvestor, holdingAt_redeemedInvestor, hI _]
  by_cases hx : x = isin
  · simp [hx]
    ring
  · simp [hx]

theorem holdingSum_eq_zero {st : Store} {isin : String}
    (h : ∀ k r, st.lookup k = some r → unitsHeld r isin = 0) : holdingSum st isin = 0 := by
  unfold holdingSum
  apply List.sum_eq_zero
  intro x hx
  obtain ⟨e, he, rfl⟩ := List.mem_map.mp hx
  exact h e.1 e.2 (AList.mem_lookup_iff.mpr he)

theorem holdingSum_nonneg {st : Store} {isin : String}
    (h : ∀ k r, st.lookup k = some r → 0 ≤ unitsHeld r isin) : 0 ≤ holdingSum st isin := by
  unfold holdingSum
  apply List.sum_nonneg
  intro x hx
  obtain ⟨e, he, rfl⟩ := List.mem_map.mp hx
  exact h e.1 e.2 (AList.mem_lookup_iff.mpr he)

theorem LedgerInv_empty : LedgerInv (∅ : Store) :=
  ⟨fun k a h => by simp at h, fun _ _ k r h => by simp at h, fun k a h => by simp at h⟩

theorem SignInv_empty : SignInv (∅ : Store) :=
  ⟨fun k a h => by simp at h, fun k r _ h => by simp at h⟩

/-- Writing, under a free key, a record that holds nothing keeps the structural invariant,
provided an asset record carries the key as its identifier and has all its units available. -/
theorem LedgerInv_insert_new {st : Store} (hinv : LedgerInv st) (k : String) (r : Record)
    (hfree : st.lookup k = none) (hheld : ∀ x, unitsHeld r x = 0)
    (hasset : ∀ a, r = .asset a → a.ISIN = k ∧ a.AvailableUnits = a.TotalUnits) :
    LedgerInv (st.insert k r) := by
  have hsum : ∀ x, holdingSum (st.insert k r) x = holdingSum st x := by
    intro x
    rw [holdingSum_insert, hfree, hheld]
    simp
  refine ⟨?_, ?_, ?_⟩
  · intro k' a h
    rw [lookup_insert_eq] at h
    split at h
    · rename_i hk
      subst hk
      exact (hasset a (Option.some.inj h)).1
    · exact hinv.keyed k' a h
  · intro isin h k' r' h'
    rw [lookup_insert_eq] at h h'
    split at h
    · simp at h
    split at h'
    · rw [← Option.some.inj h']
      exact hheld isin
    · exact hinv.noOrphan isin h k' r' h'
  · intro k' a h
    rw [lookup_insert_eq] at h
    rw [hsum]
    split at h
    · rename_i hk
      subst hk
      rw [holdingSum_eq_zero (hinv.noOrphan k' hfree), (hasset a (Option.some.inj h)).2]
      simp
    · exact hinv.conserved k' a h

theorem lookup_transfer (st : Store) (ka inv : String) (a1 : Asset) (i1 : Investor)
    (k : String) :
    ((st.insert ka (.asset a1)).insert inv (.investor i1)).lookup k
      = if k = inv then some (.investor i1)
        else if k = ka then some (.asset a1) else st.lookup k := by
  rw [lookup_insert_eq, lookup_insert_eq]

/-- Moving `d` units of the asset stored at `isin` from its available units to the holding
of the record stored at `inv` keeps the structural invariant. -/
theorem LedgerInv_transfer {st : Store} (hinv : LedgerInv st) {isin inv : String} {a : Asset}
    {ri : Record} (a1 : Asset) (i1 : Investor) (d : Int)
    (hra : st.lookup isin = some (.asset a)) (hri : st.lookup inv = some ri)
    (hISIN : a1.ISIN = a.ISIN) (hT : a1.TotalUnits = a.TotalUnits)
    (hA : a1.AvailableUnits = a.AvailableUnits - d)
    (hheld : ∀ x, unitsHeld (.investor i1) x = unitsHeld ri x + if x = isin then d else 0) :
    LedgerInv ((st.insert a.ISIN (.asset a1)).insert inv (.investor i1)) := by
  have hk : a.ISIN = isin := hinv.keyed _ _ hra
  rw [hk]
  have hsum : ∀ x, holdingSum ((st.insert isin (.asset a1)).insert inv (.investor i1)) x
      = holdingSum st x + if x = isin then d else 0 := by
    intro x
    rw [holdingSum_insert, holdingSum_insert, lookup_insert_eq, hra, hheld]
    by_cases hii : inv = isin
    · subst hii
      rw [hra] at hri
      rw [← Option.some.inj hri]
      simp [unitsHeld_asset]
    · simp only [hii, if_false, hri, Option.map_some', Option.getD_some, unitsHeld_asset]
      ring
  refine ⟨?_, ?_, ?_⟩
  · intro k' a' h
    rw [lookup_transfer] at h
    split at h
    · simp at h
    split at h
    · rename_i _ hk'
      rw [← Record.asset.inj (Option.some.inj h), hISIN, hk, hk']
    · exact hinv.keyed k' a' h
  · intro x h k' r' h'
    rw [lookup_transfer] at h h'
    split at h
    · simp at h
    split at h
    · simp at h
    rename_i _ hx
    split at h'
    · rw [← Option.some.inj h', hheld, if_neg hx, add_zero]
      exact hinv.noOrphan x h inv ri hri
    split at h'
    · rw [← Option.some.inj h']
      rfl
    · exact hinv.noOrphan x h k' r' h'
  · intro k' a' h
    rw [lookup_transfer] at h
    rw [hsum]
    split at h
    · simp at h
    split at h
    · rename_i _ hk'
      subst hk'
      have hc := hinv.conserved k' a hra
      rw [← Record.asset.inj (Option.some.inj h), hA, hT, if_pos rfl]
      linarith
    · rename_i _ hk'
      rw [if_neg hk', add_zero]
      exact hinv.conserved k' a' h

/-- Writing an asset record with non-negative available units, and an investor record that
holds what the record stored at `inv` held plus `d` units at `isin`, keeps all counts
non-negative. -/
theorem SignInv_transfer {st : Store} (hs : SignInv st) {isin inv : String} {ri : Record}
    (ka : String) (a1 : Asset) (i1 : Investor) (d : Int)
    (hri : st.lookup inv = some ri) (hA : 0 ≤ a1.AvailableUnits)
    (hheld : ∀ x, unitsHeld (.investor i1) x = unitsHeld ri x + if x = isin then d else 0)
    (hd : 0 ≤ unitsHeld ri isin + d) :
    SignInv ((st.insert ka (.asset a1)).insert inv (.investor i1)) := by
  refine ⟨?_, ?_⟩
  · intro k' a' h
    rw [lookup_transfer] at h
    split at h
    · simp at h
    split at h
    · rw [← Record.asset.inj (Option.some.inj h)]
      exact hA
    · exact hs.avail k' a' h
  · intro k' r' x h
    rw [lookup_transfer] at h
    split at h
    · rw [← Option.some.inj h, hheld]
      by_cases hx : x = isin
      · rw [if_pos hx, hx]
        exact hd
      · rw [if_neg hx, add_zero]
        exact hs.held inv ri x hri
    split at h
    · rw [← Option.some.inj h]
      exact le_refl _
    · exact hs.held k' r' x h

theorem SignInv_insert {st : Store} (hs : SignInv st) (k : String) (r : Record)
    (hheld : ∀ x, unitsHeld r x = 0) (hasset : ∀ a, r = .asset a → 0 ≤ a.AvailableUnits) :
    SignInv (st.insert k r) := by
  refine ⟨?_, ?_⟩
  · intro k' a h
    rw [lookup_insert_eq] at h
    split at h
    · exact hasset a (Option.some.inj h)
    · exact hs.avail k' a h
  · intro k' r' x h
    rw [lookup_insert_eq] at h
    split at h
    · rw [← Option.some.inj h, hheld]
    · exact hs.held k' r' x h

theorem SignInv.avail_unmarshal {st : Store} (hs : SignInv st) {k : String} {r : Record}
    (h : st.lookup k = some r) : 0 ≤ (unmarshalAsset r).AvailableUnits := by
  cases r with
  | asset a => exact hs.avail k a h
  | investor i => exact le_refl _

/-- The structural invariant is kept by every call whose `isin` names no investor record. -/
theorem LedgerInv_step {env : Env} {st : Store} {c : Call} (hI : env.Ideal)
    (hR : env.Reliable) (hA : c.OnAsset st) (hinv : LedgerInv st) :
    LedgerInv (exec env st c).store := by
  by_cases herr : (exec env st c).err = none
  swap
  · rw [exec_err_store hR st c herr]
    exact hinv
  cases c with
  | createUser k b =>
    obtain ⟨hfree, hst⟩ := CreateUser_ok herr
    simp only [exec]
    rw [hst]
    exact LedgerInv_insert_new hinv k _ hfree (fun _ => rfl) (fun a h => by cases h)
  | registerAsset k cn ty t p m r l =>
    obtain ⟨hfree, hst⟩ := RegisterAsset_ok herr
    simp only [exec]
    rw [hst]
    refine LedgerInv_insert_new hinv k _ hfree (fun _ => rfl) (fun a h => ?_)
    cases h
    exact ⟨rfl, rfl⟩
  | subscribeAsset k u i =>
    obtain ⟨ri, ra, hri, hra, _, _, _, hst, _⟩ := SubscribeAsset_ok herr
    simp only [exec]
    rw [hst]
    cases ra with
    | investor i0 => exact absurd hra (hA i0)
    | asset a =>
      exact LedgerInv_transfer hinv (subscribedAsset env a u)
        (subscribedInvestor env (unmarshalInvestor ri) a k u) u hra hri rfl rfl
        (by simp [subscribedAsset, hI _, unmarshalAsset])
        (unitsHeld_subscribedInvestor env hI ri a k u)
  | redeemAsset k u i =>
    obtain ⟨ri, ra, hm, ts, hri, hra, _, _, _, _, _, hst, _⟩ := RedeemAsset_ok herr
    simp only [exec]
    rw [hst]
    cases ra with
    | investor i0 => exact absurd hra (hA i0)
    | asset a =>
      exact LedgerInv_transfer hinv (redeemedAsset env a u)
        (redeemedInvestor env (unmarshalInvestor ri) a k u) (-u) hra hri rfl rfl
        (by simp [redeemedAsset, hI _, unmarshalAsset])
        (unitsHeld_redeemedInvestor env hI ri a k u)
  | getPortfolio i =>
    simp only [exec]
    split <;> exact hinv

/-- Non-negativity of available units and holdings is kept by every call with non-negative
unit counts. -/
theorem SignInv_step {env : Env} {st : Store} {c : Call} (hI : env.Ideal)
    (hR : env.Reliable) (hN : c.NonNegUnits) (hs : SignInv st) :
    SignInv (exec env st c).store := by
  by_cases herr : (exec env st c).err = none
  swap
  · rw [exec_err_store hR st c herr]
    exact hs
  cases c with
  | createUser k b =>
    obtain ⟨_, hst⟩ := CreateUser_ok herr
    simp only [exec]
    rw [hst]
    exact SignInv_insert hs k _ (fun _ => rfl) (fun a h => by cases h)
  | registerAsset k cn ty t p m r l =>
    obtain ⟨_, hst⟩ := RegisterAsset_ok herr
    simp only [exec]
    rw [hst]
    refine SignInv_insert hs k _ (fun _ => rfl) (fun a h => ?_)
    cases h
    exact hN
  | subscribeAsset k u i =>
    obtain ⟨ri, ra, hri, hra, _, hav, _, hst, _⟩ := SubscribeAsset_ok herr
    simp only [exec]
    rw [hst]
    have hu : 0 ≤ u := hN
    refine SignInv_transfer hs _ _ _ u hri ?_ (unitsHeld_subscribedInvestor env hI ri _ k u) ?_
    · simp only [subscribedAsset, hI _]
      linarith
    · have := hs.held i ri k hri
      linarith
  | redeemAsset k u i =>
    obtain ⟨ri, ra, hm, ts, hri, hra, _, hhold, _, _, _, hst, _⟩ := RedeemAsset_ok herr
    simp only [exec]
    rw [hst]
    have hu : 0 ≤ u := hN
    refine SignInv_transfer hs _ _ _ (-u) hri ?_
      (unitsHeld_redeemedInvestor env hI ri _ k u) ?_
    · simp only [redeemedAsset, hI _]
      have := hs.avail_unmarshal hra
      linarith
    · have : u ≤ unitsHeld ri k := hhold
      linarith
  | getPortfolio i =>
    simp only [exec]
    split <;> exact hs

/-- The body of `SubscribeAsset` once both records have been read. -/
theorem SubscribeAsset_eq {env : Env} {st : Store} {isin investorID : String} {ri ra : Record}
    (u : Int) (hg1 : env.getFails investorID = false) (hri : st.lookup investorID = some ri)
    (hg2 : env.getFails isin = false) (hra : st.lookup isin = some ra) :
    SubscribeAsset env st isin u investorID =
      if (unmarshalAsset ra).MaxAllowedUnits < u then fail .orderTooLarge st
      else if (unmarshalAsset ra).AvailableUnits < u then fail .insufficientSupply st
      else if (unmarshalInvestor ri).Balance
          < env.intWrap (u * (unmarshalAsset ra).PricePerUnit) then
        fail .insufficientBalance st
      else if env.putFails (unmarshalAsset ra).ISIN
          (.asset (subscribedAsset env (unmarshalAsset ra) u)) then
        fail .updateAssetFailed st
      else if env.putFails investorID
          (.investor (subscribedInvestor env (unmarshalInvestor ri) (unmarshalAsset ra)
            isin u)) then
        fail .updateInvestorFailed
          (st.insert (unmarshalAsset ra).ISIN
            (.asset (subscribedAsset env (unmarshalAsset ra) u)))
      else
        { err := none,
          store := (st.insert (unmarshalAsset ra).ISIN
            (.asset (subscribedAsset env (unmarshalAsset ra) u))).insert investorID
            (.investor (subscribedInvestor env (unmarshalInvestor ri) (unmarshalAsset ra)
              isin u)),
          event := some ("AssetSubscribed",
            { ISIN := isin, InvestorID := investorID, Units := u,
              Timestamp := env.timeString env.txTimestamp }) } := by
  simp only [SubscribeAsset, hg1, hri, hg2, hra, subscribedAsset, subscribedInvestor,
    holdingAt_getD, Bool.false_eq_true, if_false]

/-- The body of `RedeemAsset` once both records have been read and the investor has a
holdings map. -/
theorem RedeemAsset_eq {env : Env} {st : Store} {isin investorID : String} {ri ra : Record}
    {hm : HoldingMap} (u : Int) (hg1 : env.getFails investorID = false)
    (hri : st.lookup investorID = some ri) (hg2 : env.getFails isin = false)
    (hra : st.lookup isin = some ra) (hhm : (unmarshalInvestor ri).Holdings = some hm) :
    RedeemAsset env st isin u investorID =
      if (holdingAt (unmarshalInvestor ri).Holdings isin).Units < u then
        fail .insufficientHoldings st
      else
        match env.timeParse
          (holdingAt (unmarshalInvestor ri).Holdings isin).SubscribedTimeStamp with
        | none => fail .malformedTimestamp st
        | some ts =>
          if timeSince env ts < (unmarshalAsset ra).LockInPeriodDays then
            fail .lockInActive st
          else if u < (unmarshalAsset ra).MinRedeemUnits then fail .belowMinRedeem st
          else if env.putFails (unmarshalAsset ra).ISIN
              (.asset (redeemedAsset env (unmarshalAsset ra) u)) then
            fail .updateAssetFailed st
          else if env.putFails investorID
              (.investor (redeemedInvestor env (unmarshalInvestor ri) (unmarshalAsset ra)
                isin u)) then
            fail .updateInvestorFailed
              (st.insert (unmarshalAsset ra).ISIN
                (.asset (redeemedAsset env (unmarshalAsset ra) u)))
          else
            { err := none,
              store := (st.insert (unmarshalAsset ra).ISIN
                (.asset (redeemedAsset env (unmarshalAsset ra) u))).insert investorID
                (.investor (redeemedInvestor env (unmarshalInvestor ri) (unmarshalAsset ra)
                  isin u)),
              event := some ("AssetRedeemed",
                { ISIN := isin, InvestorID := investorID, Units := u,
                  Timestamp := env.timeString env.txTimestamp }) } := by
  have hat : (hm.lookup isin).getD zeroHolding = holdingAt (some hm) isin := rfl
  simp only [RedeemAsset, hg1, hri, hg2, hra, hhm, hat, redeemedAsset, redeemedInvestor,
    Option.getD_some, Bool.false_eq_true, if_false]

theorem sampleEnv_ideal (t n : Int) : (sampleEnv t n).Ideal := fun _ => rfl

theorem sampleEnv_reliable (t n : Int) : (sampleEnv t n).Reliable :=
  ⟨fun _ => rfl, fun _ _ => rfl⟩

theorem not_investor_of_asset {st : Store} {k : String} {a : Asset}
    (h : st.lookup k = some (.asset a)) : ∀ i, st.lookup k ≠ some (.investor i) := by
  intro i hi
  rw [h] at hi
  cases hi

theorem storeA_asset : storeA.lookup "A1" = some (.asset assetA) := by decide

theorem storeA_investor : storeA.lookup "inv1" = some (.investor investorA) := by rfl

theorem MoneyInv_empty : MoneyInv (∅ : Store) :=
  ⟨fun k a h => by simp at h, fun k i h => by simp at h⟩

theorem MoneyInv_insert {st : Store} (hm : MoneyInv st) (k : String) (r : Record)
    (hp : ∀ a, r = .asset a → 0 ≤ a.PricePerUnit) (hb : ∀ i, r = .investor i → 0 ≤ i.Balance) :
    MoneyInv (st.insert k r) := by
  refine ⟨?_, ?_⟩
  · intro k' a h
    rw [lookup_insert_eq] at h
    split at h
    · exact hp a (Option.some.inj h)
    · exact hm.price k' a h
  · intro k' i h
    rw [lookup_insert_eq] at h
    split at h
    · exact hb i (Option.some.inj h)
    · exact hm.balance k' i h

theorem MoneyInv.price_unmarshal {st : Store} (hm : MoneyInv st) {k : String} {r : Record}
    (h : st.lookup k = some r) : 0 ≤ (unmarshalAsset r).PricePerUnit := by
  cases r with
  | asset a => exact hm.price k a h
  | investor i => exact le_refl _

theorem MoneyInv.balance_unmarshal {st : Store} (hm : MoneyInv st) {k : String} {r : Record}
    (h : st.lookup k = some r) : 0 ≤ (unmarshalInvestor r).Balance := by
  cases r with
  | asset a => exact le_refl _
  | investor i => exact hm.balance k i h

/-- Prices and balances stay non-negative under every call with non-negative balance, price
and redeemed units. -/
theorem MoneyInv_step {env : Env} {st : Store} {c : Call} (hI : env.Ideal)
    (hR : env.Reliable) (hN : c.NonNegMoney) (hm : MoneyInv st) :
    MoneyInv (exec env st c).store := by
  by_cases herr : (exec env st c).err = none
  swap
  · rw [exec_err_store hR st c herr]
    exact hm
  cases c with
  | createUser k b =>
    obtain ⟨_, hst⟩ := CreateUser_ok herr
    simp only [exec]
    rw [hst]
    refine MoneyInv_insert hm k _ (fun a h => by cases h) (fun i h => ?_)
    cases h
    exact hN
  | registerAsset k cn ty t p m r l =>
    obtain ⟨_, hst⟩ := RegisterAsset_ok herr
    simp only [exec]
    rw [hst]
    refine MoneyInv_insert hm k _ (fun a h => ?_) (fun i h => by cases h)
    cases h
    exact hN
  | subscribeAsset k u i =>
    obtain ⟨ri, ra, hri, hra, _, _, hbal, hst, _⟩ := SubscribeAsset_ok herr
    simp only [exec]
    rw [hst]
    refine MoneyInv_insert (MoneyInv_insert hm _ _ (fun a h => ?_) (fun i h => by cases h)) _ _
      (fun a h => by cases h) (fun i h => ?_)
    · cases h
      exact hm.price_unmarshal hra
    · cases h
      simp only [subscribedInvestor, hI _] at hbal ⊢
      linarith
  | redeemAsset k u i =>
    obtain ⟨ri, ra, hmap, ts, hri, hra, _, _, _, _, _, hst, _⟩ := RedeemAsset_ok herr
    simp only [exec]
    rw [hst]
    have hu : 0 ≤ u := hN
    refine MoneyInv_insert (MoneyInv_insert hm _ _ (fun a h => ?_) (fun i h => by cases h)) _ _
      (fun a h => by cases h) (fun i h => ?_)
    · cases h
      exact hm.price_unmarshal hra
    · cases h
      simp only [redeemedInvestor, hI _]
      have h1 := hm.price_unmarshal hra
      have h2 := hm.balance_unmarshal hri
      have h3 := mul_nonneg hu h1
      linarith
  | getPortfolio i =>
    simp only [exec]
    split <;> exact hm

/-- Claim C4, evaluated on the code: with `LockInPeriodDays = 7` and a holding subscribed at
time 1000 ns, `RedeemAsset` is refused for the lock-in 6 ns after the subscription and
succeeds 7 ns after it, and so also one second after it: the boundary is 7 nanoseconds, not
7 days. -/
theorem C4_lock_in_boundary_is_nanoseconds :
    (storeL.lookup "inv1").map (fun r => holdingAt (unmarshalInvestor r).Holdings "L1")
      = some { ISIN := "L1", Units := 20, SubscribedTimeStamp := "1000" } ∧
    (storeL.lookup "L1").map (fun r => (unmarshalAsset r).LockInPeriodDays) = some 7 ∧
    (RedeemAsset (sampleEnv 1006 1006) storeL "L1" 10 "inv1").err = some .lockInActive ∧
    (RedeemAsset (sampleEnv 1007 1007) storeL "L1" 10 "inv1").err = none ∧
    (RedeemAsset (sampleEnv 1000001000 1000001000) storeL "L1" 10 "inv1").err = none := by
  refine ⟨by decide, by decide, by decide, by decide, by decide⟩

/-! ## C5 -/

/-- Claim C5: whenever `CreateUser`, `RegisterAsset`, `SubscribeAsset` or `RedeemAsset`
(or `GetPortfolio`) returns a validation error, the store after the call is the store before
it and no event was set. -/
theorem C5_rejection_is_atomic (env : Env) (st : Store) (c : Call) (e : Err)
    (h : (exec env st c).err = some e) (hv : e.isValidation = true) :
    (exec env st c).store = st ∧ (exec env st c).event = none := by
  have hne : (exec env st c).err ≠ none := by simp [h]
  cases c with
  | createUser k b =>
    exact ⟨(CreateUser_err env st k b).1.resolve_left hne, (CreateUser_err env st k b).2⟩
  | registerAsset k cn ty t p m r l =>
    exact ⟨(RegisterAsset_err env st k cn ty t p m r l).1.resolve_left hne,
      (RegisterAsset_err env st k cn ty t p m r l).2⟩
  | subscribeAsset k u i =>
    obtain ⟨hev, hst⟩ := (SubscribeAsset_err env st k u i).resolve_left hne
    refine ⟨hst.resolve_right fun hf => ?_, hev⟩
    simp only [exec] at h
    rw [h] at hf
    cases Option.some.inj hf
    simp [Err.isValidation] at hv
  | redeemAsset k u i =>
    obtain ⟨hev, hst⟩ := (RedeemAsset_err env st k u i).resolve_left hne
    refine ⟨hst.resolve_right fun hf => ?_, hev⟩
    simp only [exec] at h
    rw [h] at hf
    cases Option.some.inj hf
    simp [Err.isValidation] at hv
  | getPortfolio i =>
    simp only [exec]
    split <;> exact ⟨rfl, rfl⟩

/-- Witness for C5 (scenario B): subscribing 60 units against a cap of 50 is rejected as too
large, and the store of scenario A is left as it was, with no event. -/
theorem C5_rejection_is_atomic_witness :
    (exec (sampleEnv 8 8) storeA (.subscribeAsset "A1" 60 "inv1")).err = some .orderTooLarge ∧
      Err.orderTooLarge.isValidation = true ∧
      (exec (sampleEnv 8 8) storeA (.subscribeAsset "A1" 60 "inv1")).store = storeA ∧
      (exec (sampleEnv 8 8) storeA (.subscribeAsset "A1" 60 "inv1")).event = none :=
  ⟨by decide, rfl,
    C5_rejection_is_atomic (sampleEnv 8 8) storeA (.subscribeAsset "A1" 60 "inv1")
      .orderTooLarge (by decide) rfl⟩

/-! ## C6 -/

theorem SubscribeAsset_keeps (env : Env) {st : Store} (isin : String) (u : Int)
    (investorID : String) {k : String} (h : st.lookup k ≠ none) :
    (SubscribeAsset env st isin u investorID).store.lookup k ≠ none := by
  unfold SubscribeAsset
  repeat' split
  all_goals try simp only []
  all_goals repeat' split
  all_goals simp only [fail, lookup_insert_eq]
  all_goals first
    | exact h
    | (split_ifs <;> simp [h])

theorem RedeemAsset_keeps (env : Env) {st : Store} (isin : String) (u : Int)
    (investorID : String) {k : String} (h : st.lookup k ≠ none) :
    (RedeemAsset env st isin u investorID).store.lookup k ≠ none := by
  unfold RedeemAsset
  repeat' split
  all_goals try simp only []
  all_goals repeat' split
  all_goals simp only [fail, lookup_insert_eq]
  all_goals first
    | exact h
    | (split_ifs <;> simp [h])

/-- No call removes a key from the store. -/
theorem exec_keeps (env : Env) {st : Store} (c : Call) {k : String} (h : st.lookup k ≠ none) :
    (exec env st c).store.lookup k ≠ none := by
  cases c with
  | createUser k' b =>
    simp only [exec, CreateUser]
    repeat' split
    all_goals simp only [fail, lookup_insert_eq]
    all_goals first
      | exact h
      | (split_ifs <;> simp [h])
  | registerAsset k' cn ty t p m r l =>
    simp only [exec, RegisterAsset]
    repeat' split
    all_goals simp only [fail, lookup_insert_eq]
    all_goals first
      | exact h
      | (split_ifs <;> simp [h])
  | subscribeAsset k' u i => exact SubscribeAsset_keeps env k' u i h
  | redeemAsset k' u i => exact RedeemAsset_keeps env k' u i h
  | getPortfolio i =>
    simp only [exec]
    split <;> exact h

theorem ReachableFrom.keeps {ok : Env → Store → Call → Prop} {s0 st : Store} {k : String}
    (hr : ReachableFrom ok s0 st) (h : s0.lookup k ≠ none) : st.lookup k ≠ none := by
  induction hr with
  | refl => exact h
  | step env c _ _ ih => exact exec_keeps env c ih

/-- Claim C6: after a successful `CreateUser(k, b)`, in every later store (reached by any
calls whatsoever) a `CreateUser(k, b')` whose read of `k` succeeds fails with "investor
already exist" and leaves the store as it was; and likewise `RegisterAsset` on `k` after a
successful `RegisterAsset(k, ...)` fails with "Asset already exist". -/
theorem C6_no_double_create :
    (∀ (env : Env) (st : Store) (k : String) (b : Int),
      (CreateUser env st k b).err = none →
      ∀ st', ReachableFrom (fun _ _ _ => True) (CreateUser env st k b).store st' →
      ∀ (env' : Env) (b' : Int), env'.getFails k = false →
        (CreateUser env' st' k b').err = some .investorExists ∧
        (CreateUser env' st' k b').store = st') ∧
    (∀ (env : Env) (st : Store) (k cn ty : String) (t p m r l : Int),
      (RegisterAsset env st k cn ty t p m r l).err = none →
      ∀ st', ReachableFrom (fun _ _ _ => True) (RegisterAsset env st k cn ty t p m r l).store
        st' →
      ∀ (env' : Env) (cn' ty' : String) (t' p' m' r' l' : Int), env'.getFails k = false →
        (RegisterAsset env' st' k cn' ty' t' p' m' r' l').err = some .assetExists ∧
        (RegisterAsset env' st' k cn' ty' t' p' m' r' l').store = st') := by
  constructor
  · intro env st k b hok st' hlater env' b' hget
    have h0 : (CreateUser env st k b).store.lookup k ≠ none := by
      rw [(CreateUser_ok hok).2, AList.lookup_insert]
      simp
    have h1 := hlater.keeps h0
    obtain ⟨r, hr⟩ := Option.ne_none_iff_exists'.mp h1
    simp [CreateUser, hget, hr, fail]
  · intro env st k cn ty t p m r l hok st' hlater env' cn' ty' t' p' m' r' l' hget
    have h0 : (RegisterAsset env st k cn ty t p m r l).store.lookup k ≠ none := by
      rw [(RegisterAsset_ok hok).2, AList.lookup_insert]
      simp
    have h1 := hlater.keeps h0
    obtain ⟨r0, hr⟩ := Option.ne_none_iff_exists'.mp h1
    simp [RegisterAsset, hget, hr, fail]

/-- Witness for C6: in the store of scenario A, reached from the creation of `inv1` and from
the registration of `A1`, creating `inv1` again and registering `A1` again both fail. -/
theorem C6_no_double_create_witness :
    ((CreateUser (sampleEnv 8 8) storeA "inv1" 5).err = some .investorExists ∧
      (CreateUser (sampleEnv 8 8) storeA "inv1" 5).store = storeA) ∧
    ((RegisterAsset (sampleEnv 8 8) storeA "A1" "Other" "share" 1 2 3 4 5).err
        = some .assetExists ∧
      (RegisterAsset (sampleEnv 8 8) storeA "A1" "Other" "share" 1 2 3 4 5).store = storeA) :=
  ⟨C6_no_double_create.1 (sampleEnv 0 0) ∅ "inv1" 1000 (by decide) storeA
      (.step _ _ (.step _ _ .refl trivial) trivial) (sampleEnv 8 8) 5 rfl,
    C6_no_double_create.2 (sampleEnv 0 0) storeA1 "A1" "Acme" "bond" 100 10 50 5 0 (by decide)
      storeA (.step _ _ .refl trivial) (sampleEnv 8 8) "Other" "share" 1 2 3 4 5 rfl⟩

/-! ## C7 -/

theorem holdingAt_eq_entry (m : Option HoldingMap) (k : String) :
    holdingAt m k = (holdingEntry m k).getD zeroHolding := by
  cases m <;> rfl

/-- The entries of the holdings map written by `SubscribeAsset`. -/
theorem holdingEntry_subscribedInvestor (env : Env) (i : Investor) (a : Asset)
    (isin : String) (u : Int) (x : String) :
    holdingEntry (subscribedInvestor env i a isin u).Holdings x
      = if x = isin then
          some { ISIN := isin, Units := env.intWrap ((holdingAt i.Holdings isin).Units + u),
                 SubscribedTimeStamp := env.timeString env.txTimestamp }
        else holdingEntry i.Holdings x := by
  obtain ⟨id, b, hs⟩ := i
  by_cases hx : x = isin
  · simp [subscribedInvestor, holdingEntry, holdingLookup_insert_eq, hx]
  · cases hs <;>
      simp [subscribedInvestor, holdingEntry, holdingLookup_insert_eq, hx, -AList.insert_empty]

/-- The entries of the holdings map written by `RedeemAsset`. -/
theorem holdingEntry_redeemedInvestor (env : Env) (i : Investor) (a : Asset)
    (isin : String) (u : Int) (x : String) :
    holdingEntry (redeemedInvestor env i a isin u).Holdings x
      = if x = isin then
          some { holdingAt i.Holdings isin with
                 Units := env.intWrap ((holdingAt i.Holdings isin).Units - u) }
        else holdingEntry i.Holdings x := by
  obtain ⟨id, b, hs⟩ := i
  by_cases hx : x = isin
  · simp [redeemedInvestor, holdingEntry, holdingLookup_insert_eq, hx]
  · cases hs <;>
      simp [redeemedInvestor, holdingEntry, holdingLookup_insert_eq, hx, -AList.insert_empty]

theorem env64_reliable (t n : Int) : (env64 t n).Reliable := ⟨fun _ => rfl, fun _ _ => rfl⟩

/-- Claim C7 fails as stated: with machine integers, balance 0 and an asset whose available
units are the largest `int64`, an order of -1 units passes the three business checks and
succeeds, but the available units become the smallest `int64`, not the old value plus one;
and an order of -3 units passes the three checks computed exactly
(`-3 * 3074457345618258603 ≤ 0`) but is refused for insufficient balance, because the price
wraps to the largest `int64`. -/
theorem C7_counterexample :
    balanceAt storeM0 "inv1" = some 0 ∧
    storeM0.lookup "M1"
      = some (.asset
          { ISIN := "M1", CompanyName := "Max", AssetType := "bond",
            TotalUnits := 9223372036854775807, PricePerUnit := 3074457345618258603,
            AvailableUnits := 9223372036854775807, MaxAllowedUnits := 9223372036854775807,
            MinRedeemUnits := 0, LockInPeriodDays := 0 }) ∧
    ((-1 : Int) ≤ 9223372036854775807 ∧ (-1 : Int) * 3074457345618258603 ≤ 0) ∧
    (SubscribeAsset (env64 7 7) storeM0 "M1" (-1) "inv1").err = none ∧
    unitsAt (SubscribeAsset (env64 7 7) storeM0 "M1" (-1) "inv1").store "M1"
      = some (-9223372036854775808, 9223372036854775807) ∧
    (9223372036854775807 : Int) - (-1) ≠ -9223372036854775808 ∧
    ((-3 : Int) ≤ 9223372036854775807 ∧ (-3 : Int) * 3074457345618258603 ≤ 0) ∧
    (SubscribeAsset (env64 7 7) storeM0 "M1" (-3) "inv1").err = some .insufficientBalance := by
  refine ⟨by decide, by decide, by decide, by decide, by decide, by decide, by decide,
    by decide⟩

/-- Claim C7 as amended: with a reliable store, when an investor record is stored at
`investorID`, an asset record is stored at `isin` under its own identifier, and `units` passes
the three business checks as the contract evaluates them (the price being the `int` product
`units * PricePerUnit`), `SubscribeAsset` succeeds; the asset record at `isin` becomes the old
one with `AvailableUnits` set to the `int` difference `AvailableUnits - units`; and the
investor record at `investorID` has as balance the `int` difference of the old balance and
the price, and as units of `isin` the `int` sum of the old units and `units`.  When none of
these four operations overflows (as always with ideal integers), the results are the exact
ones: available units decreased by `units`, balance decreased by `units * PricePerUnit`,
holding increased by `units`. -/
theorem C7_subscribe_postcondition (env : Env) (hR : env.Reliable)
    (st : Store) (isin investorID : String) (units : Int) (i : Investor) (a : Asset)
    (hri : st.lookup investorID = some (.investor i))
    (hra : st.lookup isin = some (.asset a)) (hkey : a.ISIN = isin)
    (hmax : units ≤ a.MaxAllowedUnits) (havail : units ≤ a.AvailableUnits)
    (hbal : env.intWrap (units * a.PricePerUnit) ≤ i.Balance) :
    (SubscribeAsset env st isin units investorID).err = none ∧
    (SubscribeAsset env st isin units investorID).store.lookup isin
      = some (.asset
          { a with AvailableUnits := env.intWrap (a.AvailableUnits - units) }) ∧
    (∃ i', (SubscribeAsset env st isin units investorID).store.lookup investorID
        = some (.investor i') ∧
      i'.Balance = env.intWrap (i.Balance - env.intWrap (units * a.PricePerUnit)) ∧
      (holdingAt i'.Holdings isin).Units
        = env.intWrap ((holdingAt i.Holdings isin).Units + units)) ∧
    (env.intWrap (units * a.PricePerUnit) = units * a.PricePerUnit →
      env.intWrap (a.AvailableUnits - units) = a.AvailableUnits - units →
      env.intWrap (i.Balance - units * a.PricePerUnit) = i.Balance - units * a.PricePerUnit →
      env.intWrap ((holdingAt i.Holdings isin).Units + units)
        = (holdingAt i.Holdings isin).Units + units →
      (SubscribeAsset env st isin units investorID).store.lookup isin
        = some (.asset { a with AvailableUnits := a.AvailableUnits - units }) ∧
      ∃ i', (SubscribeAsset env st isin units investorID).store.lookup investorID
          = some (.investor i') ∧
        i'.Balance = i.Balance - units * a.PricePerUnit ∧
        (holdingAt i'.Holdings isin).Units = (holdingAt i.Holdings isin).Units + units) := by
  have hne : isin ≠ investorID := by
    intro heq
    rw [heq, hri] at hra
    cases hra
  have heq := SubscribeAsset_eq units (hR.1 investorID) hri (hR.1 isin) hra
  simp only [unmarshalAsset, unmarshalInvestor, hR.2, not_lt.mpr hmax, not_lt.mpr havail,
    not_lt.mpr hbal, if_false, Bool.false_eq_true, hkey] at heq
  have herr : (SubscribeAsset env st isin units investorID).err = none := by rw [heq]
  have hast : (SubscribeAsset env st isin units investorID).store.lookup isin
      = some (.asset (subscribedAsset env a units)) := by
    rw [heq, lookup_transfer, if_neg hne, if_pos rfl]
  have hinv : (SubscribeAsset env st isin units investorID).store.lookup investorID
      = some (.investor (subscribedInvestor env i a isin units)) := by
    rw [heq, lookup_transfer, if_pos rfl]
  have hheld : (holdingAt (subscribedInvestor env i a isin units).Holdings isin).Units
      = env.intWrap ((holdingAt i.Holdings isin).Units + units) := by
    rw [holdingAt_subscribedInvestor, if_pos rfl]
  refine ⟨herr, hast, ⟨_, hinv, rfl, hheld⟩, fun h1 h2 h3 h4 => ⟨?_, _, hinv, ?_, ?_⟩⟩
  · rw [hast]
    simp only [subscribedAsset, h2]
  · simp only [subscribedInvestor, h1, h3]
  · rw [hheld, h4]

/-- Witness for C7 (scenario A, machine integers): balance 1000, asset with total 100, price
10 and cap 50; subscribing 20 units leaves 80 available, balance 800 and a holding of 20
units. -/
theorem C7_subscribe_postcondition_witness :
    (SubscribeAsset (env64 7 7) storeA2 "A1" 20 "inv1").err = none ∧
    (SubscribeAsset (env64 7 7) storeA2 "A1" 20 "inv1").store.lookup "A1"
      = some (.asset assetA) ∧
    ∃ i', (SubscribeAsset (env64 7 7) storeA2 "A1" 20 "inv1").store.lookup "inv1"
        = some (.investor i') ∧
      i'.Balance = 1000 - 20 * 10 ∧ (holdingAt i'.Holdings "A1").Units = 0 + 20 := by
  have h := C7_subscribe_postcondition (env64 7 7) (env64_reliable _ _) storeA2 "A1" "inv1" 20
    { InvestorID := "inv1", Balance := 1000, Holdings := none }
    { assetA with AvailableUnits := 100 } (by rfl) (by decide) rfl (by decide) (by decide)
    (by decide)
  exact ⟨h.1, h.2.2.2 (by decide) (by decide) (by decide) (by decide)⟩

/-! ## C8 -/

/-- Claim C8 fails as stated: with machine integers, `inv1` holds -1 units of `M1`; after the
successful subscription of the smallest `int64` as units its holding has the largest
`int64` as units, not the previous units plus the subscribed ones. -/
theorem C8_counterexample :
    (holdingOf storeM1 "inv1" "M1").map (fun h => h.Units) = some (-1) ∧
    (SubscribeAsset (env64 8 8) storeM1 "M1" (-9223372036854775808) "inv1").err = none ∧
    (holdingOf (SubscribeAsset (env64 8 8) storeM1 "M1" (-9223372036854775808) "inv1").store
      "inv1" "M1").map (fun h => h.Units) = some 9223372036854775807 ∧
    (-1 : Int) + (-9223372036854775808) ≠ 9223372036854775807 := by
  refine ⟨by decide, by decide, by decide, by decide⟩

/-- Claim C8 as amended: in every environment, after a successful
`SubscribeAsset(isin, u, investorID)` the investor record at `investorID` has, under `isin`, a
holding with `ISIN = isin`, as units the `int` sum of the previous units (0 if there was no
entry or no map) and `u`, and the string of the transaction timestamp, whatever the previous
timestamp; the entries under all other keys are as before.  A second successful subscription
of `u2` leaves the `int` sum of that sum and `u2`, and the second timestamp.  When the sums do
not overflow (as always with ideal integers) the units are the previous units plus `u`, and
plus `u + u2` after the second subscription. -/
theorem C8_holding_accumulates (env : Env) (st : Store)
    (isin investorID : String) (u : Int)
    (h : (SubscribeAsset env st isin u investorID).err = none) :
    ∃ ri i', st.lookup investorID = some ri ∧
      (SubscribeAsset env st isin u investorID).store.lookup investorID
        = some (.investor i') ∧
      holdingEntry i'.Holdings isin
        = some { ISIN := isin,
                 Units := env.intWrap
                   (((holdingEntry (unmarshalInvestor ri).Holdings isin).map
                     (fun h0 => h0.Units)).getD 0 + u),
                 SubscribedTimeStamp := env.timeString env.txTimestamp } ∧
      (∀ x, x ≠ isin →
        holdingEntry i'.Holdings x = holdingEntry (unmarshalInvestor ri).Holdings x) ∧
      (∀ (env2 : Env) (u2 : Int),
        (SubscribeAsset env2 (SubscribeAsset env st isin u investorID).store isin u2
          investorID).err = none →
        ∃ i'', (SubscribeAsset env2 (SubscribeAsset env st isin u investorID).store isin u2
            investorID).store.lookup investorID = some (.investor i'') ∧
          holdingEntry i''.Holdings isin
            = some { ISIN := isin,
                     Units := env2.intWrap (env.intWrap
                       (((holdingEntry (unmarshalInvestor ri).Holdings isin).map
                         (fun h0 => h0.Units)).getD 0 + u) + u2),
                     SubscribedTimeStamp := env2.timeString env2.txTimestamp } ∧
          (env.intWrap (((holdingEntry (unmarshalInvestor ri).Holdings isin).map
              (fun h0 => h0.Units)).getD 0 + u)
            = ((holdingEntry (unmarshalInvestor ri).Holdings isin).map
              (fun h0 => h0.Units)).getD 0 + u →
           env2.intWrap (((holdingEntry (unmarshalInvestor ri).Holdings isin).map
              (fun h0 => h0.Units)).getD 0 + u + u2)
            = ((holdingEntry (unmarshalInvestor ri).Holdings isin).map
              (fun h0 => h0.Units)).getD 0 + u + u2 →
           holdingEntry i''.Holdings isin
            = some { ISIN := isin,
                     Units := ((holdingEntry (unmarshalInvestor ri).Holdings isin).map
                       (fun h0 => h0.Units)).getD 0 + (u + u2),
                     SubscribedTimeStamp := env2.timeString env2.txTimestamp })) ∧
      (env.intWrap (((holdingEntry (unmarshalInvestor ri).Holdings isin).map
          (fun h0 => h0.Units)).getD 0 + u)
        = ((holdingEntry (unmarshalInvestor ri).Holdings isin).map
          (fun h0 => h0.Units)).getD 0 + u →
       holdingEntry i'.Holdings isin
        = some { ISIN := isin,
                 Units := ((holdingEntry (unmarshalInvestor ri).Holdings isin).map
                   (fun h0 => h0.Units)).getD 0 + u,
                 SubscribedTimeStamp := env.timeString env.txTimestamp }) := by
  have hprev : ∀ m : Option HoldingMap,
      ((holdingEntry m isin).map (fun h0 => h0.Units)).getD 0 = (holdingAt m isin).Units := by
    intro m
    rw [holdingAt_eq_entry]
    cases holdingEntry m isin <;> rfl
  obtain ⟨ri, ra, hri, hra, _, _, _, hst, _⟩ := SubscribeAsset_ok h
  have hent : holdingEntry
      (subscribedInvestor env (unmarshalInvestor ri) (unmarshalAsset ra) isin u).Holdings isin
      = some { ISIN := isin,
               Units := env.intWrap
                 (((holdingEntry (unmarshalInvestor ri).Holdings isin).map
                   (fun h0 => h0.Units)).getD 0 + u),
               SubscribedTimeStamp := env.timeString env.txTimestamp } := by
    rw [holdingEntry_subscribedInvestor, if_pos rfl, hprev]
  refine ⟨ri, subscribedInvestor env (unmarshalInvestor ri) (unmarshalAsset ra) isin u, hri,
    ?_, hent, ?_, ?_, ?_⟩
  · rw [hst, AList.lookup_insert]
  · intro x hx
    rw [holdingEntry_subscribedInvestor, if_neg hx]
  · intro env2 u2 h2
    obtain ⟨ri2, ra2, hri2, hra2, _, _, _, hst2, _⟩ := SubscribeAsset_ok h2
    rw [hst, AList.lookup_insert] at hri2
    cases Option.some.inj hri2
    have hent2 : holdingEntry
        (subscribedInvestor env2 (unmarshalInvestor (.investor (subscribedInvestor env
          (unmarshalInvestor ri) (unmarshalAsset ra) isin u))) (unmarshalAsset ra2) isin
          u2).Holdings isin
        = some { ISIN := isin,
                 Units := env2.intWrap (env.intWrap
                   (((holdingEntry (unmarshalInvestor ri).Holdings isin).map
                     (fun h0 => h0.Units)).getD 0 + u) + u2),
                 SubscribedTimeStamp := env2.timeString env2.txTimestamp } := by
      rw [holdingEntry_subscribedInvestor, if_pos rfl]
      simp only [unmarshalInvestor]
      rw [holdingAt_subscribedInvestor, if_pos rfl, hprev]
    refine ⟨_, ?_, hent2, fun e1 e2 => ?_⟩
    · rw [hst2, AList.lookup_insert]
    · rw [hent2, e1, e2, add_assoc]
  · intro e1
    rw [hent, e1]

/-- Witness for C8 (machine integers): from no holding, subscribing 20 units at time 7 and
then 5 units at time 8 leaves a holding of 20 units stamped "7" and then of 25 units stamped
"8". -/
theorem C8_holding_accumulates_witness :
    (SubscribeAsset (env64 7 7) storeA2 "A1" 20 "inv1").err = none ∧
    (SubscribeAsset (env64 8 8) (SubscribeAsset (env64 7 7) storeA2 "A1" 20 "inv1").store "A1"
      5 "inv1").err = none ∧
    holdingOf storeA2 "inv1" "A1" = none ∧
    holdingOf (SubscribeAsset (env64 7 7) storeA2 "A1" 20 "inv1").store "inv1" "A1"
      = some { ISIN := "A1", Units := 0 + 20, SubscribedTimeStamp := "7" } ∧
    holdingOf (SubscribeAsset (env64 8 8)
        (SubscribeAsset (env64 7 7) storeA2 "A1" 20 "inv1").store "A1" 5 "inv1").store
        "inv1" "A1"
      = some { ISIN := "A1", Units := 0 + (20 + 5), SubscribedTimeStamp := "8" } := by
  have h1 : (SubscribeAsset (env64 7 7) storeA2 "A1" 20 "inv1").err = none := by decide
  have h2 : (SubscribeAsset (env64 8 8)
      (SubscribeAsset (env64 7 7) storeA2 "A1" 20 "inv1").store "A1" 5 "inv1").err = none := by
    decide
  obtain ⟨ri, i', hri, hst, _, _, htwo, hexact⟩ :=
    C8_holding_accumulates (env64 7 7) storeA2 "A1" "inv1" 20 h1
  obtain ⟨i'', hst2, _, hexact2⟩ := htwo (env64 8 8) 5 h2
  have hri0 : storeA2.lookup "inv1"
      = some (.investor { InvestorID := "inv1", Balance := 1000, Holdings := none }) := by rfl
  rw [hri0] at hri
  cases Option.some.inj hri
  refine ⟨h1, h2, by decide, ?_, ?_⟩
  · simp only [holdingOf, hst, Option.some_bind, unmarshalInvestor]
    exact hexact (by decide)
  · simp only [holdingOf, hst2, Option.some_bind, unmarshalInvestor]
    exact hexact2 (by decide) (by decide)

/-! ## C9 -/

/-- Claim C9 fails as stated: with machine integers and a reliable store, an order of `2^32`
units at price `2^32` against balance 0 succeeds although the fifth check of the claim,
with the exact product, fails; and an order of -3 units at price 3074457345618258603 is
refused for insufficient balance although none of the five checks of the claim fails. -/
theorem C9_counterexample :
    (env64 7 7).Reliable ∧
    (SubscribeAsset (env64 7 7) store64 "W1" 4294967296 "inv1").err = none ∧
    subscribeVerdict store64 "W1" 4294967296 "inv1" = some .insufficientBalance ∧
    (SubscribeAsset (env64 7 7) storeM0 "M1" (-3) "inv1").err = some .insufficientBalance ∧
    subscribeVerdict storeM0 "M1" (-3) "inv1" = none := by
  refine ⟨env64_reliable _ _, by decide, by decide, by decide, by decide⟩

/-- Claim C9 as amended: with a reliable store, the error returned by `SubscribeAsset` is the
first failing check in the order investor missing, asset missing, order above the cap, order
above the supply, balance below the price, the price being the `int` product
`units * PricePerUnit` (`subscribeVerdictInt`); the call succeeds exactly when both records
are stored and the three business checks, so computed, pass; and when the product does not
overflow (as always with ideal integers) the returned error is the first failing check with
the exact product (`subscribeVerdict`). -/
theorem C9_subscribe_check_order (env : Env) (hR : env.Reliable)
    (st : Store) (isin : String) (units : Int) (investorID : String) :
    (SubscribeAsset env st isin units investorID).err
      = subscribeVerdictInt env st isin units investorID ∧
    ((SubscribeAsset env st isin units investorID).err = none ↔
      ∃ ri ra, st.lookup investorID = some ri ∧ st.lookup isin = some ra ∧
        units ≤ (unmarshalAsset ra).MaxAllowedUnits ∧
        units ≤ (unmarshalAsset ra).AvailableUnits ∧
        env.intWrap (units * (unmarshalAsset ra).PricePerUnit)
          ≤ (unmarshalInvestor ri).Balance) ∧
    ((∀ ra, st.lookup isin = some ra →
        env.intWrap (units * (unmarshalAsset ra).PricePerUnit)
          = units * (unmarshalAsset ra).PricePerUnit) →
      (SubscribeAsset env st isin units investorID).err
        = subscribeVerdict st isin units investorID) := by
  have hv : (SubscribeAsset env st isin units investorID).err
      = subscribeVerdictInt env st isin units investorID := by
    cases hri : st.lookup investorID with
    | none => simp [SubscribeAsset, subscribeVerdictInt, hR.1, hri, fail]
    | some ri =>
      cases hra : st.lookup isin with
      | none => simp [SubscribeAsset, subscribeVerdictInt, hR.1, hri, hra, fail]
      | some ra =>
        rw [SubscribeAsset_eq units (hR.1 _) hri (hR.1 _) hra]
        simp only [subscribeVerdictInt, hri, hra, hR.2, gt_iff_lt, Bool.false_eq_true,
          if_false]
        split_ifs <;> simp [fail]
  refine ⟨hv, ?_, ?_⟩
  · rw [hv]
    constructor
    · intro h
      cases hri : st.lookup investorID with
      | none => simp [subscribeVerdictInt, hri] at h
      | some ri =>
        cases hra : st.lookup isin with
        | none => simp [subscribeVerdictInt, hri, hra] at h
        | some ra =>
          simp only [subscribeVerdictInt, hri, hra, gt_iff_lt] at h
          split_ifs at h with h1 h2 h3
          exact ⟨ri, ra, rfl, rfl, not_lt.mp h1, not_lt.mp h2, not_lt.mp h3⟩
    · rintro ⟨ri, ra, hri, hra, h1, h2, h3⟩
      simp [subscribeVerdictInt, hri, hra, not_lt.mpr h1, not_lt.mpr h2, not_lt.mpr h3]
  · intro hno
    rw [hv]
    cases hri : st.lookup investorID with
    | none => simp [subscribeVerdictInt, subscribeVerdict, hri]
    | some ri =>
      cases hra : st.lookup isin with
      | none => simp [subscribeVerdictInt, subscribeVerdict, hri, hra]
      | some ra => simp only [subscribeVerdictInt, subscribeVerdict, hri, hra, hno ra hra]

/-- Witness for C9 (scenario B, machine integers): in the store of scenario A, subscribing 60
units against a cap of 50 fails with the order-too-large error and leaves the store
unchanged. -/
theorem C9_subscribe_check_order_witness :
    (env64 8 8).Reliable ∧
    (SubscribeAsset (env64 8 8) storeA "A1" 60 "inv1").err = some .orderTooLarge ∧
    (SubscribeAsset (env64 8 8) storeA "A1" 60 "inv1").store = storeA :=
  ⟨env64_reliable _ _,
    (C9_subscribe_check_order (env64 8 8) (env64_reliable _ _) storeA "A1" 60 "inv1").1.trans
      (by decide), rfl⟩

/-! ## C10 -/

/-- Claim C10 fails as stated: with machine integers, `inv1` holds `2^32` units of `W1` at
price `2^32` with balance 0; the redemption of these units succeeds and leaves the balance at
0, not increased by `units * PricePerUnit`. -/
theorem C10_counterexample :
    balanceAt store64s "inv1" = some 0 ∧
    (store64s.lookup "W1").map (fun r => (unmarshalAsset r).PricePerUnit) = some 4294967296 ∧
    (RedeemAsset (env64 9 9) store64s "W1" 4294967296 "inv1").err = none ∧
    balanceAt (RedeemAsset (env64 9 9) store64s "W1" 4294967296 "inv1").store "inv1"
      = some 0 ∧
    (0 : Int) + 4294967296 * 4294967296 ≠ 0 := by
  refine ⟨by decide, by decide, by decide, by decide, by decide⟩

/-- Claim C10 as amended: in every environment, whenever
`RedeemAsset(isin, units, investorID)` succeeds on an asset record stored at `isin` under its
own identifier, an investor record was stored at `investorID`; the asset record at `isin`
becomes the old one with `AvailableUnits` set to the `int` sum `AvailableUnits + units`; the
investor's balance becomes the `int` sum of the old balance and the `int` product
`units * PricePerUnit`; the holding for `isin` keeps its `ISIN` and `SubscribedTimeStamp` and
has as units the `int` difference of its units and `units`; and the entries under all other
keys are as before.  When none of these four operations overflows (as always with ideal
integers), the results are the exact ones. -/
theorem C10_redeem_postcondition (env : Env) (st : Store)
    (isin investorID : String) (units : Int) (a : Asset)
    (hra : st.lookup isin = some (.asset a)) (hkey : a.ISIN = isin)
    (h : (RedeemAsset env st isin units investorID).err = none) :
    ∃ i i', st.lookup investorID = some (.investor i) ∧
      (RedeemAsset env st isin units investorID).store.lookup isin
        = some (.asset { a with AvailableUnits := env.intWrap (a.AvailableUnits + units) }) ∧
      (RedeemAsset env st isin units investorID).store.lookup investorID
        = some (.investor i') ∧
      i'.Balance = env.intWrap (i.Balance + env.intWrap (units * a.PricePerUnit)) ∧
      holdingEntry i'.Holdings isin
        = some { holdingAt i.Holdings isin with
                 Units := env.intWrap ((holdingAt i.Holdings isin).Units - units) } ∧
      (∀ x, x ≠ isin → holdingEntry i'.Holdings x = holdingEntry i.Holdings x) ∧
      (env.intWrap (units * a.PricePerUnit) = units * a.PricePerUnit →
        env.intWrap (a.AvailableUnits + units) = a.AvailableUnits + units →
        env.intWrap (i.Balance + units * a.PricePerUnit)
          = i.Balance + units * a.PricePerUnit →
        env.intWrap ((holdingAt i.Holdings isin).Units - units)
          = (holdingAt i.Holdings isin).Units - units →
        (RedeemAsset env st isin units investorID).store.lookup isin
          = some (.asset { a with AvailableUnits := a.AvailableUnits + units }) ∧
        i'.Balance = i.Balance + units * a.PricePerUnit ∧
        holdingEntry i'.Holdings isin
          = some { holdingAt i.Holdings isin with
                   Units := (holdingAt i.Holdings isin).Units - units }) := by
  obtain ⟨ri, ra, hm, ts, hri, hra', hhm, _, _, _, _, hst, _⟩ := RedeemAsset_ok h
  rw [hra] at hra'
  cases Option.some.inj hra'
  cases ri with
  | asset a0 => simp [unmarshalInvestor, zeroInvestor] at hhm
  | investor i =>
    have hne : isin ≠ investorID := by
      intro heq
      rw [heq, hri] at hra
      cases hra
    have hast : (RedeemAsset env st isin units investorID).store.lookup isin
        = some (.asset
            { a with AvailableUnits := env.intWrap (a.AvailableUnits + units) }) := by
      rw [hst, lookup_transfer, if_neg hne]
      simp [unmarshalAsset, redeemedAsset, hkey]
    have hent : holdingEntry (redeemedInvestor env i a isin units).Holdings isin
        = some { holdingAt i.Holdings isin with
                 Units := env.intWrap ((holdingAt i.Holdings isin).Units - units) } := by
      rw [holdingEntry_redeemedInvestor, if_pos rfl]
    refine ⟨i, redeemedInvestor env i a isin units, hri, hast, ?_, rfl, hent, ?_, ?_⟩
    · rw [hst, AList.lookup_insert]
      rfl
    · intro x hx
      rw [holdingEntry_redeemedInvestor, if_neg hx]
    · intro h1 h2 h3 h4
      refine ⟨?_, ?_, ?_⟩
      · rw [hast, h2]
      · simp only [redeemedInvestor, h1, h3]
      · rw [hent, h4]

/-- Witness for C10 (scenario D, machine integers): from 80 available, balance 800 and a
holding of 20, redeeming 10 units at price 10 gives 90 available, balance 900 and a holding of
10. -/
theorem C10_redeem_postcondition_witness :
    (RedeemAsset (env64 9 9) storeA "A1" 10 "inv1").err = none ∧
    unitsAt storeA "A1" = some (80, 100) ∧ balanceAt storeA "inv1" = some 800 ∧
    holdingOf storeA "inv1" "A1"
      = some { ISIN := "A1", Units := 20, SubscribedTimeStamp := "7" } ∧
    (RedeemAsset (env64 9 9) storeA "A1" 10 "inv1").store.lookup "A1"
      = some (.asset { assetA with AvailableUnits := 80 + 10 }) ∧
    ∃ i', (RedeemAsset (env64 9 9) storeA "A1" 10 "inv1").store.lookup "inv1"
        = some (.investor i') ∧
      i'.Balance = 800 + 10 * 10 ∧
      holdingEntry i'.Holdings "A1"
        = some { ISIN := "A1", Units := 20 - 10, SubscribedTimeStamp := "7" } := by
  have herr : (RedeemAsset (env64 9 9) storeA "A1" 10 "inv1").err = none := by decide
  obtain ⟨i, i', hi, _, hi', _, _, _, hexact⟩ :=
    C10_redeem_postcondition (env64 9 9) storeA "A1" "inv1" 10 assetA storeA_asset rfl herr
  rw [storeA_investor] at hi
  cases Option.some.inj hi
  obtain ⟨e1, e2, e3⟩ := hexact (by decide) (by decide) (by decide) (by decide)
  exact ⟨herr, by decide, by decide, by decide, e1, i', hi', e2, e3⟩

/-! ## The writes of `SubscribeAsset` and `RedeemAsset` in every outcome -/

/-- Every outcome of `SubscribeAsset`: an error without a write; or the asset record written
and the write of the investor record failed; or both records written and success. -/
theorem SubscribeAsset_shape (env : Env) (st : Store) (isin : String) (u : Int)
    (investorID : String) :
    ((SubscribeAsset env st isin u investorID).store = st ∧
      (SubscribeAsset env st isin u investorID).err ≠ none ∧
      (SubscribeAsset env st isin u investorID).err ≠ some .updateInvestorFailed) ∨
    ∃ ri ra, st.lookup investorID = some ri ∧ st.lookup isin = some ra ∧
      (((SubscribeAsset env st isin u investorID).err = some .updateInvestorFailed ∧
        (SubscribeAsset env st isin u investorID).store =
          st.insert (unmarshalAsset ra).ISIN
            (.asset (subscribedAsset env (unmarshalAsset ra) u))) ∨
      ((SubscribeAsset env st isin u investorID).err = none ∧
        (SubscribeAsset env st isin u investorID).store =
          (st.insert (unmarshalAsset ra).ISIN
            (.asset (subscribedAsset env (unmarshalAsset ra) u))).insert investorID
            (.investor (subscribedInvestor env (unmarshalInvestor ri) (unmarshalAsset ra)
              isin u)))) := by
  by_cases hg1 : env.getFails investorID = true
  · simp [SubscribeAsset, hg1, fail]
  cases hri : st.lookup investorID with
  | none => simp [SubscribeAsset, hg1, hri, fail]
  | some ri =>
    by_cases hg2 : env.getFails isin = true
    · simp [SubscribeAsset, hg1, hri, hg2, fail]
    cases hra : st.lookup isin with
    | none => simp [SubscribeAsset, hg1, hri, hg2, hra, fail]
    | some ra =>
      rw [SubscribeAsset_eq u (by simpa using hg1) hri (by simpa using hg2) hra]
      split_ifs
      · simp [fail]
      · simp [fail]
      · simp [fail]
      · simp [fail]
      · exact Or.inr ⟨ri, ra, rfl, rfl, Or.inl ⟨rfl, rfl⟩⟩
      · exact Or.inr ⟨ri, ra, rfl, rfl, Or.inr ⟨rfl, rfl⟩⟩

/-- Every outcome of `RedeemAsset`: an error without a write; or the asset record written and
the write of the investor record failed; or both records written and success.  In the last
two cases the record at `investorID` has a holdings map, so it is an investor record. -/
theorem RedeemAsset_shape (env : Env) (st : Store) (isin : String) (u : Int)
    (investorID : String) :
    ((RedeemAsset env st isin u investorID).store = st ∧
      (RedeemAsset env st isin u investorID).err ≠ none ∧
      (RedeemAsset env st isin u investorID).err ≠ some .updateInvestorFailed) ∨
    ∃ ri ra hm, st.lookup investorID = some ri ∧ st.lookup isin = some ra ∧
      (unmarshalInvestor ri).Holdings = some hm ∧
      (((RedeemAsset env st isin u investorID).err = some .updateInvestorFailed ∧
        (RedeemAsset env st isin u investorID).store =
          st.insert (unmarshalAsset ra).ISIN
            (.asset (redeemedAsset env (unmarshalAsset ra) u))) ∨
      ((RedeemAsset env st isin u investorID).err = none ∧
        (RedeemAsset env st isin u investorID).store =
          (st.insert (unmarshalAsset ra).ISIN
            (.asset (redeemedAsset env (unmarshalAsset ra) u))).insert investorID
            (.investor (redeemedInvestor env (unmarshalInvestor ri) (unmarshalAsset ra)
              isin u)))) := by
  by_cases hg1 : env.getFails investorID = true
  · simp [RedeemAsset, hg1, fail]
  cases hri : st.lookup investorID with
  | none => simp [RedeemAsset, hg1, hri, fail]
  | some ri =>
    by_cases hg2 : env.getFails isin = true
    · simp [RedeemAsset, hg1, hri, hg2, fail]
    cases hra : st.lookup isin with
    | none => simp [RedeemAsset, hg1, hri, hg2, hra, fail]
    | some ra =>
      cases hhm : (unmarshalInvestor ri).Holdings with
      | none => simp [RedeemAsset, hg1, hri, hg2, hra, hhm, fail]
      | some hm =>
        rw [RedeemAsset_eq u (by simpa using hg1) hri (by simpa using hg2) hra hhm]
        by_cases h2 : (holdingAt (unmarshalInvestor ri).Holdings isin).Units < u
        · rw [if_pos h2]
          simp [fail]
        rw [if_neg h2]
        cases hts : env.timeParse
            (holdingAt (unmarshalInvestor ri).Holdings isin).SubscribedTimeStamp with
        | none => simp [fail]
        | some ts =>
          dsimp only
          split_ifs
          · simp [fail]
          · simp [fail]
          · simp [fail]
          · exact Or.inr ⟨ri, ra, hm, rfl, rfl, hhm, Or.inl ⟨rfl, rfl⟩⟩
          · exact Or.inr ⟨ri, ra, hm, rfl, rfl, hhm, Or.inr ⟨rfl, rfl⟩⟩

/-! ## C11 -/

/-- Claim C11 fails as stated: in a store where `inv1` holds units of `A1` only and the asset
`B1` exists, redeeming 5 units of `B1` fails with the insufficient-holdings error and
redeeming 0 units with the malformed-timestamp error, not with the no-holdings error. -/
theorem C11_counterexample :
    holdingOf storeAB "inv1" "B1" = none ∧
    (storeAB.lookup "B1").isSome = true ∧
    (RedeemAsset (sampleEnv 9 9) storeAB "B1" 5 "inv1").err = some .insufficientHoldings ∧
    (RedeemAsset (sampleEnv 9 9) storeAB "B1" 0 "inv1").err = some .malformedTimestamp := by
  refine ⟨by decide, by decide, by decide, by decide⟩

/-- Claim C11 as amended: when the reads succeed, an investor record is stored at `investorID`
and some record at `isin`, and the investor has no entry for `isin`, `RedeemAsset` fails
without a write and without an event for every `units`: with the no-holdings error if the
investor has no holdings map at all; otherwise with the insufficient-holdings error if
`units > 0`, and with the malformed-timestamp error if `units ≤ 0` (the empty timestamp of
the zero holding does not parse). -/
theorem C11_redeem_without_holding (env : Env) (st : Store) (isin investorID : String)
    (units : Int) (i : Investor) (ra : Record)
    (hg1 : env.getFails investorID = false) (hg2 : env.getFails isin = false)
    (hparse : env.timeParse "" = none)
    (hri : st.lookup investorID = some (.investor i)) (hra : st.lookup isin = some ra)
    (hno : holdingEntry i.Holdings isin = none) :
    (RedeemAsset env st isin units investorID).err
      = some (match i.Holdings with
        | none => .noHoldings
        | some _ => if 0 < units then .insufficientHoldings else .malformedTimestamp) ∧
    (RedeemAsset env st isin units investorID).store = st ∧
    (RedeemAsset env st isin units investorID).event = none := by
  cases hhm : i.Holdings with
  | none => simp [RedeemAsset, hg1, hg2, hri, hra, unmarshalInvestor, hhm, fail]
  | some hm =>
    have hz : holdingAt (unmarshalInvestor (.investor i)).Holdings isin = zeroHolding := by
      rw [holdingAt_eq_entry]
      simp only [unmarshalInvestor, hno, Option.getD_none]
    have hhm' : (unmarshalInvestor (.investor i)).Holdings = some hm := hhm
    rw [RedeemAsset_eq units hg1 hri hg2 hra hhm', hz]
    simp only [zeroHolding, hparse]
    split_ifs <;> simp [fail]

/-- Witness for C11: with `inv1` holding `A1` only, redeeming 5 units of `B1` is
refused for insufficient holdings and nothing is written. -/
theorem C11_redeem_without_holding_witness :
    storeAB.lookup "inv1" = some (.investor investorA) ∧
    holdingEntry investorA.Holdings "B1" = none ∧
    (RedeemAsset (sampleEnv 9 9) storeAB "B1" 5 "inv1").err = some .insufficientHoldings ∧
    (RedeemAsset (sampleEnv 9 9) storeAB "B1" 5 "inv1").store = storeAB ∧
    (RedeemAsset (sampleEnv 9 9) storeAB "B1" 5 "inv1").event = none :=
  ⟨by rfl, by decide,
    C11_redeem_without_holding (sampleEnv 9 9) storeAB "B1" "inv1" 5 investorA
      (.asset { ISIN := "B1", CompanyName := "Bolt", AssetType := "bond", TotalUnits := 10,
                PricePerUnit := 10, AvailableUnits := 10, MaxAllowedUnits := 50,
                MinRedeemUnits := 5, LockInPeriodDays := 0 })
      rfl rfl (by decide) (by rfl) (by decide) (by decide)⟩

/-! ## C12 -/

/-- Claim C12: with a reliable store, when an investor record and an asset record are stored,
the holding for `isin` has at least `units` units, its timestamp parses and the lock-in check
passes, `RedeemAsset` fails with the below-minimum error if `units < MinRedeemUnits` and
succeeds if `units ≥ MinRedeemUnits`; and in every environment the below-minimum error is
returned only after the holdings, timestamp and lock-in checks have passed. -/
theorem C12_minimum_redemption :
    (∀ (env : Env) (st : Store) (isin investorID : String) (units : Int) (i : Investor)
      (a : Asset) (hm : HoldingMap) (h : Holding) (ts : Int), env.Reliable →
      st.lookup investorID = some (.investor i) → st.lookup isin = some (.asset a) →
      i.Holdings = some hm → hm.lookup isin = some h → units ≤ h.Units →
      env.timeParse h.SubscribedTimeStamp = some ts →
      ¬ timeSince env ts < a.LockInPeriodDays →
      (units < a.MinRedeemUnits →
        (RedeemAsset env st isin units investorID).err = some .belowMinRedeem) ∧
      (a.MinRedeemUnits ≤ units →
        (RedeemAsset env st isin units investorID).err = none)) ∧
    (∀ (env : Env) (st : Store) (isin investorID : String) (units : Int),
      (RedeemAsset env st isin units investorID).err = some .belowMinRedeem →
      ∃ ri ra hm ts, st.lookup investorID = some ri ∧ st.lookup isin = some ra ∧
        (unmarshalInvestor ri).Holdings = some hm ∧
        units ≤ (holdingAt (unmarshalInvestor ri).Holdings isin).Units ∧
        env.timeParse (holdingAt (unmarshalInvestor ri).Holdings isin).SubscribedTimeStamp
          = some ts ∧
        (unmarshalAsset ra).LockInPeriodDays ≤ timeSince env ts ∧
        units < (unmarshalAsset ra).MinRedeemUnits) := by
  constructor
  · intro env st isin inv u i a hm h ts hR hri hra hhm hh hu hts hlock
    have hat : holdingAt (unmarshalInvestor (.investor i)).Holdings isin = h := by
      simp [unmarshalInvestor, hhm, holdingAt, hh]
    have hhm' : (unmarshalInvestor (.investor i)).Holdings = some hm := hhm
    rw [RedeemAsset_eq u (hR.1 _) hri (hR.1 _) hra hhm', hat]
    simp only [not_lt.mpr hu, if_false, hts, unmarshalAsset, hlock, hR.2,
      Bool.false_eq_true]
    constructor
    · intro hlt
      rw [if_pos hlt]
      rfl
    · intro hge
      rw [if_neg (not_lt.mpr hge)]
  · intro env st isin inv u herr
    by_cases hg1 : env.getFails inv = true
    · simp [RedeemAsset, hg1, fail] at herr
    cases hri : st.lookup inv with
    | none => simp [RedeemAsset, hg1, hri, fail] at herr
    | some ri =>
      by_cases hg2 : env.getFails isin = true
      · simp [RedeemAsset, hg1, hri, hg2, fail] at herr
      cases hra : st.lookup isin with
      | none => simp [RedeemAsset, hg1, hri, hg2, hra, fail] at herr
      | some ra =>
        cases hhm : (unmarshalInvestor ri).Holdings with
        | none => simp [RedeemAsset, hg1, hri, hg2, hra, hhm, fail] at herr
        | some hm =>
          rw [RedeemAsset_eq u (by simpa using hg1) hri (by simpa using hg2) hra hhm] at herr
          by_cases h2 : (holdingAt (unmarshalInvestor ri).Holdings isin).Units < u
          · rw [if_pos h2] at herr
            simp [fail] at herr
          rw [if_neg h2] at herr
          cases hts : env.timeParse
              (holdingAt (unmarshalInvestor ri).Holdings isin).SubscribedTimeStamp with
          | none =>
            rw [hts] at herr
            simp [fail] at herr
          | some ts =>
            rw [hts] at herr
            dsimp only at herr
            by_cases h3 : timeSince env ts < (unmarshalAsset ra).LockInPeriodDays
            · rw [if_pos h3] at herr
              simp [fail] at herr
            by_cases h4 : u < (unmarshalAsset ra).MinRedeemUnits
            · exact ⟨ri, ra, hm, ts, rfl, rfl, hhm, not_lt.mp h2, hts, not_lt.mp h3, h4⟩
            · rw [if_neg h3, if_neg h4] at herr
              split_ifs at herr <;> simp [fail] at herr

/-- Witness for C12 (scenario C): from a holding of 20 units, redeeming 3 units against a
minimum of 5 fails with the below-minimum error, and redeeming 10 units succeeds. -/
theorem C12_minimum_redemption_witness :
    (RedeemAsset (sampleEnv 9 9) storeA "A1" 3 "inv1").err = some .belowMinRedeem ∧
    (RedeemAsset (sampleEnv 9 9) storeA "A1" 10 "inv1").err = none ∧
    ∃ ri ra hm ts, storeA.lookup "inv1" = some ri ∧ storeA.lookup "A1" = some ra ∧
      (unmarshalInvestor ri).Holdings = some hm ∧
      (3 : Int) ≤ (holdingAt (unmarshalInvestor ri).Holdings "A1").Units ∧
      (sampleEnv 9 9).timeParse
        (holdingAt (unmarshalInvestor ri).Holdings "A1").SubscribedTimeStamp = some ts ∧
      (unmarshalAsset ra).LockInPeriodDays ≤ timeSince (sampleEnv 9 9) ts ∧
      (3 : Int) < (unmarshalAsset ra).MinRedeemUnits := by
  have hpre := fun u (hu : u ≤ (20 : Int)) =>
    C12_minimum_redemption.1 (sampleEnv 9 9) storeA "A1" "inv1" u investorA assetA
      (AList.singleton "A1" { ISIN := "A1", Units := 20, SubscribedTimeStamp := "7" })
      { ISIN := "A1", Units := 20, SubscribedTimeStamp := "7" } 7 (sampleEnv_reliable _ _)
      storeA_investor storeA_asset rfl (by rfl) hu (by decide) (by decide)
  have h3 := (hpre 3 (by decide)).1 (by decide)
  exact ⟨h3, (hpre 10 (by decide)).2 (by decide),
    C12_minimum_redemption.2 (sampleEnv 9 9) storeA "A1" "inv1" 3 h3⟩

/-! ## C13 -/

theorem KeyedAssets_insert {st : Store} (hk : KeyedAssets st) (k : String) (r : Record)
    (h : ∀ a, r = .asset a → a.ISIN = k) : KeyedAssets (st.insert k r) := by
  intro k' a ha
  rw [lookup_insert_eq] at ha
  split at ha
  · rename_i hkk
    rw [hkk]
    exact h a (Option.some.inj ha)
  · exact hk k' a ha

/-- Every call, in every environment, leaves asset records under their own identifier. -/
theorem exec_keyed (env : Env) {st : Store} (c : Call) (hk : KeyedAssets st) :
    KeyedAssets (exec env st c).store := by
  cases c with
  | createUser k b =>
    simp only [exec]
    rcases (CreateUser_err env st k b).1 with h | h
    · rw [(CreateUser_ok h).2]
      exact KeyedAssets_insert hk _ _ (fun a ha => by cases ha)
    · rw [h]
      exact hk
  | registerAsset k cn ty t p m r l =>
    simp only [exec]
    rcases (RegisterAsset_err env st k cn ty t p m r l).1 with h | h
    · rw [(RegisterAsset_ok h).2]
      refine KeyedAssets_insert hk _ _ (fun a ha => ?_)
      rw [← Record.asset.inj ha]
    · rw [h]
      exact hk
  | subscribeAsset k u i =>
    simp only [exec]
    rcases SubscribeAsset_shape env st k u i with ⟨hst, _, _⟩ | ⟨ri, ra, _, _, h⟩
    · rw [hst]
      exact hk
    · have h1 : KeyedAssets (st.insert (unmarshalAsset ra).ISIN
          (.asset (subscribedAsset env (unmarshalAsset ra) u))) := by
        refine KeyedAssets_insert hk _ _ (fun a ha => ?_)
        rw [← Record.asset.inj ha]
        rfl
      rcases h with ⟨_, hst⟩ | ⟨_, hst⟩
      · rw [hst]
        exact h1
      · rw [hst]
        exact KeyedAssets_insert h1 _ _ (fun a ha => by cases ha)
  | redeemAsset k u i =>
    simp only [exec]
    rcases RedeemAsset_shape env st k u i with ⟨hst, _, _⟩ | ⟨ri, ra, hm, _, _, _, h⟩
    · rw [hst]
      exact hk
    · have h1 : KeyedAssets (st.insert (unmarshalAsset ra).ISIN
          (.asset (redeemedAsset env (unmarshalAsset ra) u))) := by
        refine KeyedAssets_insert hk _ _ (fun a ha => ?_)
        rw [← Record.asset.inj ha]
        rfl
      rcases h with ⟨_, hst⟩ | ⟨_, hst⟩
      · rw [hst]
        exact h1
      · rw [hst]
        exact KeyedAssets_insert h1 _ _ (fun a ha => by cases ha)
  | getPortfolio i =>
    simp only [exec]
    split <;> exact hk

theorem Asset.SameIssue.trans {a b c : Asset} (h1 : a.SameIssue b) (h2 : b.SameIssue c) :
    a.SameIssue c := by
  obtain ⟨a1, a2, a3, a4, a5, a6, a7, a8⟩ := h1
  obtain ⟨b1, b2, b3, b4, b5, b6, b7, b8⟩ := h2
  exact ⟨b1.trans a1, b2.trans a2, b3.trans a3, b4.trans a4, b5.trans a5, b6.trans a6,
    b7.trans a7, b8.trans a8⟩

theorem Asset.SameIssue.refl (a : Asset) : a.SameIssue a :=
  ⟨rfl, rfl, rfl, rfl, rfl, rfl, rfl, rfl⟩

/-- The write of an asset record that differs from the decoded record at `isin` in its
available units only keeps the asset stored at `k`, up to its available units. -/
theorem asset_write_kept {st : Store} (hkeyed : KeyedAssets st) {k isin : String} {a : Asset}
    {ra : Record} (a1 : Asset) (ha : st.lookup k = some (.asset a))
    (hra : st.lookup isin = some ra) (hsame : (unmarshalAsset ra).SameIssue a1)
    (hon : k = "" → ∀ i, st.lookup isin ≠ some (.investor i)) :
    ∃ a', (st.insert (unmarshalAsset ra).ISIN (.asset a1)).lookup k = some (.asset a') ∧
      a.SameIssue a' := by
  rw [lookup_insert_eq]
  cases ra with
  | asset a0 =>
    have hk0 : a0.ISIN = isin := hkeyed _ _ hra
    simp only [unmarshalAsset, hk0] at hsame ⊢
    by_cases hki : k = isin
    · rw [if_pos hki]
      rw [hki, hra] at ha
      cases ha
      exact ⟨a1, rfl, hsame⟩
    · rw [if_neg hki]
      exact ⟨a, ha, Asset.SameIssue.refl a⟩
  | investor i0 =>
    simp only [unmarshalAsset, zeroAsset]
    by_cases hke : k = ""
    · exact absurd hra (hon hke i0)
    · rw [if_neg hke]
      exact ⟨a, ha, Asset.SameIssue.refl a⟩

/-- One admitted call keeps the asset stored at `k`, up to its available units. -/
theorem asset_kept_step {env : Env} {st : Store} {c : Call} {k : String} {a : Asset}
    (hkeyed : KeyedAssets st) (ha : st.lookup k = some (.asset a))
    (hok : keepsAsset k env st c) :
    ∃ a', (exec env st c).store.lookup k = some (.asset a') ∧ a.SameIssue a' := by
  have hfree : ∀ k', st.lookup k' = none → k ≠ k' := by
    intro k' hn hkk
    rw [hkk, hn] at ha
    cases ha
  cases c with
  | createUser k' b =>
    simp only [exec]
    rcases (CreateUser_err env st k' b).1 with h | h
    · rw [(CreateUser_ok h).2, lookup_insert_eq, if_neg (hfree k' (CreateUser_ok h).1)]
      exact ⟨a, ha, Asset.SameIssue.refl a⟩
    · rw [h]
      exact ⟨a, ha, Asset.SameIssue.refl a⟩
  | registerAsset k' cn ty t p m r l =>
    simp only [exec]
    rcases (RegisterAsset_err env st k' cn ty t p m r l).1 with h | h
    · rw [(RegisterAsset_ok h).2, lookup_insert_eq, if_neg (hfree k' (RegisterAsset_ok h).1)]
      exact ⟨a, ha, Asset.SameIssue.refl a⟩
    · rw [h]
      exact ⟨a, ha, Asset.SameIssue.refl a⟩
  | subscribeAsset isin u inv =>
    simp only [exec]
    rcases SubscribeAsset_shape env st isin u inv with ⟨hst, _, _⟩ | ⟨ri, ra, hri, hra, h⟩
    · rw [hst]
      exact ⟨a, ha, Asset.SameIssue.refl a⟩
    · have h1 := asset_write_kept hkeyed (subscribedAsset env (unmarshalAsset ra) u) ha hra
        ⟨rfl, rfl, rfl, rfl, rfl, rfl, rfl, rfl⟩ hok.2
      have hne : k ≠ inv := by
        intro hki
        rw [hki] at ha
        exact hok.1 a ha
      rcases h with ⟨_, hst⟩ | ⟨_, hst⟩
      · rw [hst]
        exact h1
      · rw [hst, lookup_insert_eq, if_neg hne]
        exact h1
  | redeemAsset isin u inv =>
    simp only [exec]
    rcases RedeemAsset_shape env st isin u inv with
      ⟨hst, _, _⟩ | ⟨ri, ra, hm, hri, hra, hhm, h⟩
    · rw [hst]
      exact ⟨a, ha, Asset.SameIssue.refl a⟩
    · have h1 := asset_write_kept hkeyed (redeemedAsset env (unmarshalAsset ra) u) ha hra
        ⟨rfl, rfl, rfl, rfl, rfl, rfl, rfl, rfl⟩ hok.2
      have hne : k ≠ inv := by
        intro hki
        rw [hki, hri] at ha
        cases ha
        simp [unmarshalInvestor, zeroInvestor] at hhm
      rcases h with ⟨_, hst⟩ | ⟨_, hst⟩
      · rw [hst]
        exact h1
      · rw [hst, lookup_insert_eq, if_neg hne]
        exact h1
  | getPortfolio i =>
    simp only [exec]
    split <;> exact ⟨a, ha, Asset.SameIssue.refl a⟩

/-- Claim C13 fails as stated: after `A1` has been registered, the successful call
`SubscribeAsset("A1", 0, "A1")`, whose `investorID` is the asset key, leaves an investor
record under `A1`: the asset record is gone. -/
theorem C13_counterexample :
    (RegisterAsset (sampleEnv 0 0) storeA1 "A1" "Acme" "bond" 100 10 50 5 0).err = none ∧
    (RegisterAsset (sampleEnv 0 0) storeA1 "A1" "Acme" "bond" 100 10 50 5 0).store = storeA2 ∧
    (SubscribeAsset (sampleEnv 8 8) storeA2 "A1" 0 "A1").err = none ∧
    ReachableFrom (fun _ _ _ => True) storeA2 storeOverwritten ∧
    storeOverwritten.lookup "A1"
      = some (.investor
          { InvestorID := "", Balance := 0,
            Holdings := some (AList.singleton "A1"
              { ISIN := "A1", Units := 0, SubscribedTimeStamp := "8" }) }) :=
  ⟨by decide, rfl, by decide, .step _ _ .refl trivial, by rfl⟩

/-- Claim C13 as amended: in a store whose asset records sit under their own identifiers,
once `RegisterAsset(isin, ...)` has succeeded, every store reached by later calls, none of
which is a `SubscribeAsset` whose `investorID` is the key of an asset record (nor, when `isin`
is the empty key, a call whose `isin` argument is the key of an investor record), holds at
`isin` an asset record with the registered `ISIN`, `CompanyName`, `AssetType`, `TotalUnits`,
`PricePerUnit`, `MaxAllowedUnits`, `MinRedeemUnits` and `LockInPeriodDays`. -/
theorem C13_asset_record_kept (env : Env) (st : Store) (isin cn ty : String)
    (t p m r l : Int) (hkeyed : KeyedAssets st)
    (hok : (RegisterAsset env st isin cn ty t p m r l).err = none) (st' : Store)
    (hlater : ReachableFrom (keepsAsset isin) (RegisterAsset env st isin cn ty t p m r l).store
      st') :
    ∃ a', st'.lookup isin = some (.asset a') ∧
      a'.ISIN = isin ∧ a'.CompanyName = cn ∧ a'.AssetType = ty ∧ a'.TotalUnits = t ∧
      a'.PricePerUnit = p ∧ a'.MaxAllowedUnits = m ∧ a'.MinRedeemUnits = r ∧
      a'.LockInPeriodDays = l := by
  have hmain : KeyedAssets st' ∧ ∃ a', st'.lookup isin = some (.asset a') ∧
      Asset.SameIssue
        { ISIN := isin, CompanyName := cn, AssetType := ty, TotalUnits := t,
          PricePerUnit := p, AvailableUnits := t, MaxAllowedUnits := m,
          MinRedeemUnits := r, LockInPeriodDays := l } a' := by
    induction hlater with
    | refl =>
      rw [(RegisterAsset_ok hok).2]
      refine ⟨KeyedAssets_insert hkeyed _ _ (fun a ha => ?_), _, AList.lookup_insert _,
        Asset.SameIssue.refl _⟩
      rw [← Record.asset.inj ha]
    | step env' c _ hc ih =>
      obtain ⟨hk', a', ha', hs'⟩ := ih
      obtain ⟨a'', ha'', hs''⟩ := asset_kept_step hk' ha' hc
      exact ⟨exec_keyed env' c hk', a'', ha'', hs'.trans hs''⟩
  obtain ⟨_, a', ha', hs⟩ := hmain
  exact ⟨a', ha', hs⟩

/-- Witness for C13: `A1` registered in the store holding `inv1`; after the subscription of
scenario A and the redemption of scenario D the record at `A1` still carries the registered
fields. -/
theorem C13_asset_record_kept_witness :
    KeyedAssets storeA1 ∧
    (RegisterAsset (sampleEnv 0 0) storeA1 "A1" "Acme" "bond" 100 10 50 5 0).err = none ∧
    ReachableFrom (keepsAsset "A1") storeA2 storeD ∧
    ∃ a', storeD.lookup "A1" = some (.asset a') ∧
      a'.ISIN = "A1" ∧ a'.CompanyName = "Acme" ∧ a'.AssetType = "bond" ∧ a'.TotalUnits = 100 ∧
      a'.PricePerUnit = 10 ∧ a'.MaxAllowedUnits = 50 ∧ a'.MinRedeemUnits = 5 ∧
      a'.LockInPeriodDays = 0 := by
  have hk : KeyedAssets storeA1 := exec_keyed _ _ (fun k a h => by simp at h)
  have hinv : ∀ a, storeA2.lookup "inv1" ≠ some (.asset a) := by
    intro a h
    have h' : storeA2.lookup "inv1"
        = some (.investor { InvestorID := "inv1", Balance := 1000, Holdings := none }) := by
      rfl
    rw [h'] at h
    cases h
  have hreach : ReachableFrom (keepsAsset "A1") storeA2 storeD :=
    .step _ _ (.step _ _ .refl ⟨hinv, fun h => absurd h (by decide)⟩)
      ⟨trivial, fun h => absurd h (by decide)⟩
  exact ⟨hk, by decide, hreach,
    C13_asset_record_kept (sampleEnv 0 0) storeA1 "A1" "Acme" "bond" 100 10 50 5 0 hk
      (by decide) storeD hreach⟩

/-! ## C14 -/

/-- Claim C14 fails as stated in its last part: with machine integers, the portfolio of `inv1`
has -1 units of `M1`; after the successful subscription of the smallest `int64` as units
the returned map has the largest `int64` as units of `M1`, not the previous units plus the
subscribed ones. -/
theorem C14_counterexample :
    (GetPortfolio (env64 8 8) storeM1 "inv1").toOption.map
        (fun m => (holdingAt m "M1").Units) = some (-1) ∧
    (SubscribeAsset (env64 8 8) storeM1 "M1" (-9223372036854775808) "inv1").err = none ∧
    (GetPortfolio (env64 9 9)
        (SubscribeAsset (env64 8 8) storeM1 "M1" (-9223372036854775808) "inv1").store
        "inv1").toOption.map (fun m => (holdingAt m "M1").Units)
      = some 9223372036854775807 ∧
    (-1 : Int) + (-9223372036854775808) ≠ 9223372036854775807 := by
  refine ⟨by decide, by decide, by decide, by decide⟩

/-- Claim C14 as amended: `GetPortfolio` writes nothing and sets no event; when its read
succeeds it fails with the not-found error if no record is stored at `investorID`, and
returns exactly the `Holdings` of the investor record stored there otherwise; so after a
successful `SubscribeAsset(isin, u, investorID)` the returned map has at `isin` the `int`
sum of the previous units and `u`, which is the previous units plus `u` when the sum does not
overflow (as always with ideal integers). -/
theorem C14_get_portfolio_pure_read :
    (∀ (env : Env) (st : Store) (investorID : String),
      (exec env st (.getPortfolio investorID)).store = st ∧
      (exec env st (.getPortfolio investorID)).event = none) ∧
    (∀ (env : Env) (st : Store) (investorID : String), env.getFails investorID = false →
      st.lookup investorID = none →
      GetPortfolio env st investorID = .error .investorNotFound) ∧
    (∀ (env : Env) (st : Store) (investorID : String) (i : Investor),
      env.getFails investorID = false → st.lookup investorID = some (.investor i) →
      GetPortfolio env st investorID = .ok i.Holdings) ∧
    (∀ (env env' : Env) (st : Store) (isin investorID : String) (u : Int),
      env'.getFails investorID = false →
      (SubscribeAsset env st isin u investorID).err = none →
      ∃ ri m, st.lookup investorID = some ri ∧
        GetPortfolio env' (SubscribeAsset env st isin u investorID).store investorID = .ok m ∧
        (holdingAt m isin).Units
          = env.intWrap ((holdingAt (unmarshalInvestor ri).Holdings isin).Units + u) ∧
        (env.intWrap ((holdingAt (unmarshalInvestor ri).Holdings isin).Units + u)
            = (holdingAt (unmarshalInvestor ri).Holdings isin).Units + u →
          (holdingAt m isin).Units
            = (holdingAt (unmarshalInvestor ri).Holdings isin).Units + u))
    := by
  refine ⟨?_, ?_, ?_, ?_⟩
  · intro env st inv
    simp only [exec]
    split <;> exact ⟨rfl, rfl⟩
  · intro env st inv hg hno
    simp [GetPortfolio, hg, hno]
  · intro env st inv i hg hi
    simp [GetPortfolio, hg, hi, unmarshalInvestor]
  · intro env env' st isin inv u hg hok
    obtain ⟨ri, ra, hri, _, _, _, _, hst, _⟩ := SubscribeAsset_ok hok
    have hu : (holdingAt (subscribedInvestor env (unmarshalInvestor ri) (unmarshalAsset ra)
        isin u).Holdings isin).Units
        = env.intWrap ((holdingAt (unmarshalInvestor ri).Holdings isin).Units + u) := by
      rw [holdingAt_subscribedInvestor, if_pos rfl]
    refine ⟨ri,
      (subscribedInvestor env (unmarshalInvestor ri) (unmarshalAsset ra) isin u).Holdings,
      hri, ?_, hu, fun e => ?_⟩
    · rw [hst]
      simp only [GetPortfolio, hg, AList.lookup_insert, unmarshalInvestor, Bool.false_eq_true,
        if_false]
    · rw [hu, e]

/-- Witness for C14 (scenario E): a portfolio query for an identifier that was never created
fails with the not-found error; the query for `inv1` after scenario A returns its holdings,
with 20 units of `A1`. -/
theorem C14_get_portfolio_pure_read_witness :
    GetPortfolio (sampleEnv 9 9) storeA "nobody" = .error .investorNotFound ∧
    GetPortfolio (sampleEnv 9 9) storeA "inv1" = .ok investorA.Holdings ∧
    (exec (sampleEnv 9 9) storeA (.getPortfolio "inv1")).store = storeA ∧
    ∃ ri m, storeA2.lookup "inv1" = some ri ∧
      GetPortfolio (env64 9 9) (SubscribeAsset (env64 7 7) storeA2 "A1" 20 "inv1").store "inv1"
        = .ok m ∧
      (holdingAt m "A1").Units = (holdingAt (unmarshalInvestor ri).Holdings "A1").Units + 20 := by
  obtain ⟨ri, m, hri, hm, _, hexact⟩ :=
    C14_get_portfolio_pure_read.2.2.2 (env64 7 7) (env64 9 9) storeA2 "A1" "inv1" 20 rfl
      (by decide)
  have hri0 : storeA2.lookup "inv1"
      = some (.investor { InvestorID := "inv1", Balance := 1000, Holdings := none }) := by rfl
  have hri' := hri
  rw [hri0] at hri'
  cases Option.some.inj hri'
  exact ⟨C14_get_portfolio_pure_read.2.1 (sampleEnv 9 9) storeA "nobody" rfl (by decide),
    C14_get_portfolio_pure_read.2.2.1 (sampleEnv 9 9) storeA "inv1" investorA rfl
      storeA_investor,
    (C14_get_portfolio_pure_read.1 (sampleEnv 9 9) storeA "inv1").1,
    _, m, hri, hm, hexact (by decide)⟩

/-! ## C15 -/

/-- Claim C15: with a reliable store, `RegisterAsset` on a free key `isin` succeeds, stores at
`isin` the asset record built from its arguments with `AvailableUnits = TotalUnits = total`,
sets no event and changes no other key; and it fails with the already-exists error exactly
when some record, of either kind, is stored at `isin`, leaving the store unchanged. -/
theorem C15_register_postcondition (env : Env) (hR : env.Reliable) (st : Store)
    (isin cn ty : String) (total price maxUnits minRedeem lockIn : Int) :
    (st.lookup isin = none →
      (RegisterAsset env st isin cn ty total price maxUnits minRedeem lockIn).err = none ∧
      (RegisterAsset env st isin cn ty total price maxUnits minRedeem lockIn).store.lookup isin
        = some (.asset
            { ISIN := isin, CompanyName := cn, AssetType := ty, TotalUnits := total,
              PricePerUnit := price, AvailableUnits := total, MaxAllowedUnits := maxUnits,
              MinRedeemUnits := minRedeem, LockInPeriodDays := lockIn }) ∧
      (RegisterAsset env st isin cn ty total price maxUnits minRedeem lockIn).event = none ∧
      ∀ k, k ≠ isin →
        (RegisterAsset env st isin cn ty total price maxUnits minRedeem lockIn).store.lookup k
          = st.lookup k) ∧
    ((RegisterAsset env st isin cn ty total price maxUnits minRedeem lockIn).err
        = some .assetExists ↔ st.lookup isin ≠ none) ∧
    (st.lookup isin ≠ none →
      (RegisterAsset env st isin cn ty total price maxUnits minRedeem lockIn).store = st) := by
  cases hl : st.lookup isin with
  | none =>
    have he : RegisterAsset env st isin cn ty total price maxUnits minRedeem lockIn
        = { err := none,
            store := st.insert isin (.asset
              { ISIN := isin, CompanyName := cn, AssetType := ty, TotalUnits := total,
                PricePerUnit := price, AvailableUnits := total, MaxAllowedUnits := maxUnits,
                MinRedeemUnits := minRedeem, LockInPeriodDays := lockIn }),
            event := none } := by
      simp only [RegisterAsset, hR.1, hR.2, hl, Bool.false_eq_true, if_false]
    rw [he]
    refine ⟨fun _ => ⟨rfl, AList.lookup_insert _, rfl, fun k hk => ?_⟩, ?_, ?_⟩
    · rw [lookup_insert_eq, if_neg hk]
    · simp
    · simp
  | some r0 =>
    simp [RegisterAsset, hR.1, hl, fail]

/-- Witness for C15: registering `A1` in the store that holds only `inv1` succeeds, stores
the record of scenario A with 100 of 100 units available and leaves `inv1` as it was;
registering it again fails. -/
theorem C15_register_postcondition_witness :
    storeA1.lookup "A1" = none ∧
    ((RegisterAsset (sampleEnv 0 0) storeA1 "A1" "Acme" "bond" 100 10 50 5 0).err = none ∧
      (RegisterAsset (sampleEnv 0 0) storeA1 "A1" "Acme" "bond" 100 10 50 5 0).store.lookup
          "A1"
        = some (.asset
            { ISIN := "A1", CompanyName := "Acme", AssetType := "bond", TotalUnits := 100,
              PricePerUnit := 10, AvailableUnits := 100, MaxAllowedUnits := 50,
              MinRedeemUnits := 5, LockInPeriodDays := 0 }) ∧
      (RegisterAsset (sampleEnv 0 0) storeA1 "A1" "Acme" "bond" 100 10 50 5 0).event = none ∧
      ∀ k, k ≠ "A1" →
        (RegisterAsset (sampleEnv 0 0) storeA1 "A1" "Acme" "bond" 100 10 50 5 0).store.lookup k
          = storeA1.lookup k) ∧
    (RegisterAsset (sampleEnv 1 1) storeA2 "A1" "Acme" "bond" 100 10 50 5 0).err
      = some .assetExists :=
  ⟨by decide,
    (C15_register_postcondition (sampleEnv 0 0) (sampleEnv_reliable _ _) storeA1 "A1" "Acme"
      "bond" 100 10 50 5 0).1 (by decide),
    (C15_register_postcondition (sampleEnv 1 1) (sampleEnv_reliable _ _) storeA2 "A1" "Acme"
      "bond" 100 10 50 5 0).2.1.mpr (by decide)⟩

/-! ## C16 -/

/-- Claim C16: `SubscribeAsset` sets the event `AssetSubscribed` with payload
`{isin, investorID, unitsNeeded, timestamp}` exactly when it returns success, and the
timestamp is the one stored in the holding; `RedeemAsset` sets the event `AssetRedeemed` with
the same payload layout and the transaction timestamp exactly when it returns success;
`CreateUser`, `RegisterAsset` and `GetPortfolio` never set an event. -/
theorem C16_event_emission (env : Env) (st : Store) :
    (∀ (isin : String) (u : Int) (investorID : String),
      (SubscribeAsset env st isin u investorID).event
        = if (SubscribeAsset env st isin u investorID).err = none then
            some ("AssetSubscribed",
              { ISIN := isin, InvestorID := investorID, Units := u,
                Timestamp := env.timeString env.txTimestamp })
          else none) ∧
    (∀ (isin : String) (u : Int) (investorID : String),
      (SubscribeAsset env st isin u investorID).err = none →
      (holdingOf (SubscribeAsset env st isin u investorID).store investorID isin).map
          (fun h => h.SubscribedTimeStamp)
        = some (env.timeString env.txTimestamp)) ∧
    (∀ (isin : String) (u : Int) (investorID : String),
      (RedeemAsset env st isin u investorID).event
        = if (RedeemAsset env st isin u investorID).err = none then
            some ("AssetRedeemed",
              { ISIN := isin, InvestorID := investorID, Units := u,
                Timestamp := env.timeString env.txTimestamp })
          else none) ∧
    (∀ (investorID : String) (balance : Int),
      (CreateUser env st investorID balance).event = none) ∧
    (∀ (isin cn ty : String) (t p m r l : Int),
      (RegisterAsset env st isin cn ty t p m r l).event = none) ∧
    (∀ (investorID : String), (exec env st (.getPortfolio investorID)).event = none) := by
  refine ⟨?_, ?_, ?_, ?_, ?_, ?_⟩
  · intro isin u inv
    by_cases herr : (SubscribeAsset env st isin u inv).err = none
    · obtain ⟨ri, ra, _, _, _, _, _, _, hev⟩ := SubscribeAsset_ok herr
      rw [if_pos herr, hev]
    · rw [if_neg herr]
      exact ((SubscribeAsset_err env st isin u inv).resolve_left herr).1
  · intro isin u inv herr
    obtain ⟨ri, ra, _, _, _, _, _, hst, _⟩ := SubscribeAsset_ok herr
    simp only [holdingOf, hst, AList.lookup_insert, Option.some_bind, unmarshalInvestor,
      holdingEntry_subscribedInvestor, if_true, Option.map_some']
  · intro isin u inv
    by_cases herr : (RedeemAsset env st isin u inv).err = none
    · obtain ⟨ri, ra, hm, ts, _, _, _, _, _, _, _, _, hev⟩ := RedeemAsset_ok herr
      rw [if_pos herr, hev]
    · rw [if_neg herr]
      exact ((RedeemAsset_err env st isin u inv).resolve_left herr).1
  · intro inv b
    exact (CreateUser_err env st inv b).2
  · intro isin cn ty t p m r l
    exact (RegisterAsset_err env st isin cn ty t p m r l).2
  · intro inv
    simp only [exec]
    split <;> rfl

/-- Witness for C16 (scenario D): the redemption of 10 units of `A1` by `inv1` in a
transaction stamped 9 succeeds and sets the event `AssetRedeemed{A1, inv1, 10, "9"}`; the
rejected order of scenario B sets none. -/
theorem C16_event_emission_witness :
    (RedeemAsset (sampleEnv 9 9) storeA "A1" 10 "inv1").err = none ∧
    (RedeemAsset (sampleEnv 9 9) storeA "A1" 10 "inv1").event
      = some ("AssetRedeemed",
          { ISIN := "A1", InvestorID := "inv1", Units := 10, Timestamp := "9" }) ∧
    (SubscribeAsset (sampleEnv 8 8) storeA "A1" 60 "inv1").event = none ∧
    (holdingOf (SubscribeAsset (sampleEnv 7 7) storeA2 "A1" 20 "inv1").store "inv1" "A1").map
        (fun h => h.SubscribedTimeStamp) = some "7" := by
  have hD : (RedeemAsset (sampleEnv 9 9) storeA "A1" 10 "inv1").err = none := by decide
  have hB : (SubscribeAsset (sampleEnv 8 8) storeA "A1" 60 "inv1").err ≠ none := by decide
  refine ⟨hD, ?_, ?_, ?_⟩
  · rw [(C16_event_emission (sampleEnv 9 9) storeA).2.2.1 "A1" 10 "inv1", if_pos hD]
    rfl
  · rw [(C16_event_emission (sampleEnv 8 8) storeA).1 "A1" 60 "inv1", if_neg hB]
  · exact (C16_event_emission (sampleEnv 7 7) storeA2).2.1 "A1" 20 "inv1" (by decide)

/-! ## C17 -/

/-- Claim C17 fails as stated: when the write of the investor record fails, `SubscribeAsset`
returns an error after it has rewritten the asset record (available units 100 before, 80
after), and so does `RedeemAsset` (80 before, 90 after); the investor record is as before. -/
theorem C17_counterexample :
    ((SubscribeAsset (flakyEnv 7 7) storeA2 "A1" 20 "inv1").err
        = some .updateInvestorFailed ∧
      unitsAt storeA2 "A1" = some (100, 100) ∧
      unitsAt (SubscribeAsset (flakyEnv 7 7) storeA2 "A1" 20 "inv1").store "A1"
        = some (80, 100) ∧
      balanceAt (SubscribeAsset (flakyEnv 7 7) storeA2 "A1" 20 "inv1").store "inv1"
        = some 1000) ∧
    ((RedeemAsset (flakyEnv 9 9) storeA "A1" 10 "inv1").err = some .updateInvestorFailed ∧
      unitsAt storeA "A1" = some (80, 100) ∧
      unitsAt (RedeemAsset (flakyEnv 9 9) storeA "A1" 10 "inv1").store "A1"
        = some (90, 100) ∧
      balanceAt (RedeemAsset (flakyEnv 9 9) storeA "A1" 10 "inv1").store "inv1"
        = some 800) := by
  refine ⟨⟨by decide, by decide, by decide, by decide⟩,
    ⟨by decide, by decide, by decide, by decide⟩⟩

/-- Claim C17 as amended: whenever `SubscribeAsset` or `RedeemAsset` returns an error, no event
is set; if the error is any other than the failure of the write of the investor record, the
store is the store before the call; if it is that failure, the store is the store before the
call with the asset record rewritten (its available units decreased, respectively increased,
by `units`) and nothing else. -/
theorem C17_writes_on_error (env : Env) (st : Store) (isin : String) (units : Int)
    (investorID : String) :
    (∀ e, (SubscribeAsset env st isin units investorID).err = some e →
      (SubscribeAsset env st isin units investorID).event = none ∧
      (e ≠ .updateInvestorFailed → (SubscribeAsset env st isin units investorID).store = st) ∧
      (e = .updateInvestorFailed → ∃ ra, st.lookup isin = some ra ∧
        (SubscribeAsset env st isin units investorID).store
          = st.insert (unmarshalAsset ra).ISIN
              (.asset { unmarshalAsset ra with
                AvailableUnits :=
                  env.intWrap ((unmarshalAsset ra).AvailableUnits - units) }))) ∧
    (∀ e, (RedeemAsset env st isin units investorID).err = some e →
      (RedeemAsset env st isin units investorID).event = none ∧
      (e ≠ .updateInvestorFailed → (RedeemAsset env st isin units investorID).store = st) ∧
      (e = .updateInvestorFailed → ∃ ra, st.lookup isin = some ra ∧
        (RedeemAsset env st isin units investorID).store
          = st.insert (unmarshalAsset ra).ISIN
              (.asset { unmarshalAsset ra with
                AvailableUnits :=
                  env.intWrap ((unmarshalAsset ra).AvailableUnits + units) }))) := by
  constructor
  · intro e he
    have hne : (SubscribeAsset env st isin units investorID).err ≠ none := by simp [he]
    refine ⟨((SubscribeAsset_err env st isin units investorID).resolve_left hne).1, ?_, ?_⟩
    · intro hnot
      rcases SubscribeAsset_shape env st isin units investorID with
        ⟨hst, _, _⟩ | ⟨ri, ra, _, _, ⟨hf, _⟩ | ⟨hok, _⟩⟩
      · exact hst
      · rw [he] at hf
        exact absurd (Option.some.inj hf) hnot
      · exact absurd hok hne
    · intro hfail
      rcases SubscribeAsset_shape env st isin units investorID with
        ⟨_, _, hnf⟩ | ⟨ri, ra, _, hra, ⟨_, hst⟩ | ⟨hok, _⟩⟩
      · rw [he, hfail] at hnf
        exact absurd rfl hnf
      · exact ⟨ra, hra, hst⟩
      · exact absurd hok hne
  · intro e he
    have hne : (RedeemAsset env st isin units investorID).err ≠ none := by simp [he]
    refine ⟨((RedeemAsset_err env st isin units investorID).resolve_left hne).1, ?_, ?_⟩
    · intro hnot
      rcases RedeemAsset_shape env st isin units investorID with
        ⟨hst, _, _⟩ | ⟨ri, ra, hm, _, _, _, ⟨hf, _⟩ | ⟨hok, _⟩⟩
      · exact hst
      · rw [he] at hf
        exact absurd (Option.some.inj hf) hnot
      · exact absurd hok hne
    · intro hfail
      rcases RedeemAsset_shape env st isin units investorID with
        ⟨_, _, hnf⟩ | ⟨ri, ra, hm, _, hra, _, ⟨_, hst⟩ | ⟨hok, _⟩⟩
      · rw [he, hfail] at hnf
        exact absurd rfl hnf
      · exact ⟨ra, hra, hst⟩
      · exact absurd hok hne

/-- Witness for C17: the rejected order of scenario B leaves the store as it was; the
subscription whose investor write fails leaves the store with the asset record rewritten. -/
theorem C17_writes_on_error_witness :
    (SubscribeAsset (sampleEnv 8 8) storeA "A1" 60 "inv1").err = some .orderTooLarge ∧
    (SubscribeAsset (sampleEnv 8 8) storeA "A1" 60 "inv1").store = storeA ∧
    (SubscribeAsset (flakyEnv 7 7) storeA2 "A1" 20 "inv1").err = some .updateInvestorFailed ∧
    ∃ ra, storeA2.lookup "A1" = some ra ∧
      (SubscribeAsset (flakyEnv 7 7) storeA2 "A1" 20 "inv1").store
        = storeA2.insert (unmarshalAsset ra).ISIN
            (.asset { unmarshalAsset ra with
              AvailableUnits :=
                (flakyEnv 7 7).intWrap ((unmarshalAsset ra).AvailableUnits - 20) }) := by
  have hB : (SubscribeAsset (sampleEnv 8 8) storeA "A1" 60 "inv1").err
      = some .orderTooLarge := by decide
  have hF : (SubscribeAsset (flakyEnv 7 7) storeA2 "A1" 20 "inv1").err
      = some .updateInvestorFailed := by decide
  exact ⟨hB,
    ((C17_writes_on_error (sampleEnv 8 8) storeA "A1" 60 "inv1").1 _ hB).2.1 (by decide),
    hF, ((C17_writes_on_error (flakyEnv 7 7) storeA2 "A1" 20 "inv1").1 _ hF).2.2 rfl⟩

/-! ## C18 -/

theorem wrap64_eq_self {x : Int} (h1 : -(2 ^ 63) ≤ x) (h2 : x < 2 ^ 63) : wrap64 x = x := by
  unfold wrap64
  omega

/-- Claim C18 fails as stated: with 64-bit machine integers, balance 0, price `2^32` and an
order of `2^32` units (all within `int64`), the product wraps to 0, the balance check passes
and `SubscribeAsset` succeeds, although the exact price `2^64` exceeds the balance; the
investor then holds `2^32` units with balance 0. -/
theorem C18_counterexample :
    balanceAt store64 "inv1" = some 0 ∧
    (store64.lookup "W1").map (fun r => (unmarshalAsset r).PricePerUnit) = some 4294967296 ∧
    (0 : Int) < 4294967296 * 4294967296 ∧
    wrap64 (4294967296 * 4294967296) = 0 ∧
    (SubscribeAsset (env64 7 7) store64 "W1" 4294967296 "inv1").err = none ∧
    balanceAt (SubscribeAsset (env64 7 7) store64 "W1" 4294967296 "inv1").store "inv1"
      = some 0 ∧
    (holdingOf (SubscribeAsset (env64 7 7) store64 "W1" 4294967296 "inv1").store "inv1"
      "W1").map (fun h => h.Units) = some 4294967296 := by
  refine ⟨by decide, by decide, by decide, by decide, by decide, by decide, by decide⟩

/-- Claim C18 as amended: with 64-bit machine integers, when the reads succeed and the cap
and supply checks pass, `SubscribeAsset` succeeds only if the balance is at least the wrapped
product `units * PricePerUnit`, and fails with the insufficient-balance error when the balance
is below it; when the exact product lies within `int64` the wrapped product is the exact one,
so that an unaffordable order is then rejected. -/
theorem C18_balance_check_machine (env : Env) (hw : ∀ x, env.intWrap x = wrap64 x)
    (st : Store) (isin investorID : String) (units : Int) (ri ra : Record)
    (hg1 : env.getFails investorID = false) (hg2 : env.getFails isin = false)
    (hri : st.lookup investorID = some ri) (hra : st.lookup isin = some ra)
    (hmax : units ≤ (unmarshalAsset ra).MaxAllowedUnits)
    (havail : units ≤ (unmarshalAsset ra).AvailableUnits) :
    ((SubscribeAsset env st isin units investorID).err = none →
      wrap64 (units * (unmarshalAsset ra).PricePerUnit) ≤ (unmarshalInvestor ri).Balance) ∧
    ((unmarshalInvestor ri).Balance < wrap64 (units * (unmarshalAsset ra).PricePerUnit) →
      (SubscribeAsset env st isin units investorID).err = some .insufficientBalance) ∧
    (-(2 ^ 63) ≤ units * (unmarshalAsset ra).PricePerUnit →
      units * (unmarshalAsset ra).PricePerUnit < 2 ^ 63 →
      ((SubscribeAsset env st isin units investorID).err = none →
        units * (unmarshalAsset ra).PricePerUnit ≤ (unmarshalInvestor ri).Balance) ∧
      ((unmarshalInvestor ri).Balance < units * (unmarshalAsset ra).PricePerUnit →
        (SubscribeAsset env st isin units investorID).err = some .insufficientBalance)) := by
  have hlt : (unmarshalInvestor ri).Balance
      < wrap64 (units * (unmarshalAsset ra).PricePerUnit) →
      (SubscribeAsset env st isin units investorID).err = some .insufficientBalance := by
    intro hb
    rw [SubscribeAsset_eq units hg1 hri hg2 hra, if_neg (not_lt.mpr hmax),
      if_neg (not_lt.mpr havail), hw, if_pos hb]
    rfl
  have hok : (SubscribeAsset env st isin units investorID).err = none →
      wrap64 (units * (unmarshalAsset ra).PricePerUnit) ≤ (unmarshalInvestor ri).Balance := by
    intro h
    by_contra hnot
    rw [hlt (not_le.mp hnot)] at h
    cases h
  refine ⟨hok, hlt, fun h1 h2 => ?_⟩
  rw [← wrap64_eq_self h1 h2]
  exact ⟨hok, hlt⟩

/-- Witness for C18: with machine integers and no overflow, an order of one unit at price
`2^32` against balance 0 is rejected for insufficient balance. -/
theorem C18_balance_check_machine_witness :
    (SubscribeAsset (env64 7 7) store64 "W1" 1 "inv1").err = some .insufficientBalance :=
  ((C18_balance_check_machine (env64 7 7) (fun _ => rfl) store64 "W1" "inv1" 1
    (.investor { InvestorID := "inv1", Balance := 0, Holdings := none })
    (.asset { ISIN := "W1", CompanyName := "Wide", AssetType := "bond",
              TotalUnits := 8589934592, PricePerUnit := 4294967296,
              AvailableUnits := 8589934592, MaxAllowedUnits := 4294967296,
              MinRedeemUnits := 1, LockInPeriodDays := 0 })
    rfl rfl (by rfl) (by decide) (by decide) (by decide)).2.2 (by decide) (by decide)).2
    (by decide)

/-! ## C19 -/

theorem assets_insert {P : Asset → Prop} {st : Store}
    (h : ∀ k a, st.lookup k = some (.asset a) → P a) (k : String) (r : Record)
    (hr : ∀ a, r = .asset a → P a) :
    ∀ k' a, (st.insert k r).lookup k' = some (.asset a) → P a := by
  intro k' a ha
  rw [lookup_insert_eq] at ha
  split at ha
  · exact hr a (Option.some.inj ha)
  · exact h k' a ha

/-- The minimum redemption of every stored asset stays non-negative. -/
theorem minRedeem_step (env : Env) {st : Store} {c : Call} (hc : c.NonNegArgs)
    (h : ∀ k a, st.lookup k = some (.asset a) → 0 ≤ a.MinRedeemUnits) :
    ∀ k a, (exec env st c).store.lookup k = some (.asset a) → 0 ≤ a.MinRedeemUnits := by
  have hdec : ∀ k ra, st.lookup k = some ra → 0 ≤ (unmarshalAsset ra).MinRedeemUnits := by
    intro k ra hra
    cases ra with
    | asset a0 => exact h k a0 hra
    | investor i0 => exact le_refl _
  cases c with
  | createUser k b =>
    simp only [exec]
    rcases (CreateUser_err env st k b).1 with h0 | h0
    · rw [(CreateUser_ok h0).2]
      exact assets_insert h _ _ (fun a ha => by cases ha)
    · rw [h0]
      exact h
  | registerAsset k cn ty t p m r l =>
    simp only [exec]
    rcases (RegisterAsset_err env st k cn ty t p m r l).1 with h0 | h0
    · rw [(RegisterAsset_ok h0).2]
      refine assets_insert h _ _ (fun a ha => ?_)
      rw [← Record.asset.inj ha]
      exact hc.2.2
    · rw [h0]
      exact h
  | subscribeAsset k u i =>
    simp only [exec]
    rcases SubscribeAsset_shape env st k u i with ⟨hst, _, _⟩ | ⟨ri, ra, _, hra, h0⟩
    · rw [hst]
      exact h
    · have h1 := assets_insert h (unmarshalAsset ra).ISIN
        (.asset (subscribedAsset env (unmarshalAsset ra) u)) (fun a ha => by
          rw [← Record.asset.inj ha]
          exact hdec k ra hra)
      rcases h0 with ⟨_, hst⟩ | ⟨_, hst⟩
      · rw [hst]
        exact h1
      · rw [hst]
        exact assets_insert h1 _ _ (fun a ha => by cases ha)
  | redeemAsset k u i =>
    simp only [exec]
    rcases RedeemAsset_shape env st k u i with ⟨hst, _, _⟩ | ⟨ri, ra, hm, _, hra, _, h0⟩
    · rw [hst]
      exact h
    · have h1 := assets_insert h (unmarshalAsset ra).ISIN
        (.asset (redeemedAsset env (unmarshalAsset ra) u)) (fun a ha => by
          rw [← Record.asset.inj ha]
          exact hdec k ra hra)
      rcases h0 with ⟨_, hst⟩ | ⟨_, hst⟩
      · rw [hst]
        exact h1
      · rw [hst]
        exact assets_insert h1 _ _ (fun a ha => by cases ha)
  | getPortfolio i =>
    simp only [exec]
    split <;> exact h

theorem admissible_nonNegUnits {c : Call} (h : c.NonNegArgs) : c.NonNegUnits := by
  cases c with
  | registerAsset k cn ty t p m r l => exact h.1
  | subscribeAsset k u i => exact h
  | redeemAsset k u i => exact h
  | createUser k b => trivial
  | getPortfolio i => trivial

theorem admissible_nonNegMoney {c : Call} (h : c.NonNegArgs) : c.NonNegMoney := by
  cases c with
  | registerAsset k cn ty t p m r l => exact h.2.1
  | subscribeAsset k u i => trivial
  | redeemAsset k u i => exact h
  | createUser k b => exact h
  | getPortfolio i => trivial

theorem admissible_onAsset {st : Store} {c : Call} (h : c.Disjoint st) : c.OnAsset st := by
  cases c with
  | registerAsset k cn ty t p m r l => trivial
  | subscribeAsset k u i => exact h.1
  | redeemAsset k u i => exact h.1
  | createUser k b => trivial
  | getPortfolio i => trivial

theorem unitsHeld_nonneg_of_entries {r : Record} {x : String}
    (h : ∀ i h0, r = .investor i → holdingEntry i.Holdings x = some h0 → 0 ≤ h0.Units) :
    0 ≤ unitsHeld r x := by
  cases r with
  | asset a => exact le_refl _
  | investor i =>
    simp only [unitsHeld, unmarshalInvestor, holdingAt_eq_entry]
    cases he : holdingEntry i.Holdings x with
    | none => exact le_refl _
    | some h0 => exact h i h0 rfl he

/-- The invariant of C19 assembled from its parts. -/
theorem FullInv_of_parts {st : Store} (hl : LedgerInv st) (hs : SignInv st) (hm : MoneyInv st)
    (hmin : ∀ k a, st.lookup k = some (.asset a) → 0 ≤ a.MinRedeemUnits) : FullInv st := by
  refine ⟨?_, hm.balance, ?_, hl.conserved⟩
  · intro k a ha
    have hc := hl.conserved k a ha
    have hn : 0 ≤ holdingSum st k := holdingSum_nonneg fun k' r h => hs.held k' r k h
    exact ⟨hs.avail k a ha, by linarith, hm.price k a ha, hmin k a ha⟩
  · intro k i x h0 hi he
    have := hs.held k (.investor i) x hi
    simp only [unitsHeld, unmarshalInvestor, holdingAt_eq_entry, he, Option.getD_some] at this
    exact this

/-- The parts of the invariant of C19. -/
theorem FullInv.parts {st : Store} (h : FullInv st) :
    SignInv st ∧ MoneyInv st ∧ ∀ k a, st.lookup k = some (.asset a) → 0 ≤ a.MinRedeemUnits :=
  ⟨⟨fun k a ha => (h.assets k a ha).1,
      fun k r x hr => unitsHeld_nonneg_of_entries fun i h0 hri he => by
        subst hri
        exact h.holdings k i x h0 hr he⟩,
    ⟨fun k a ha => (h.assets k a ha).2.2.1, h.balance⟩,
    fun k a ha => (h.assets k a ha).2.2.2⟩

theorem FullInv_storeOrphan : FullInv storeOrphan := by
  refine ⟨?_, ?_, ?_, ?_⟩
  · intro k a h
    unfold storeOrphan at h
    rw [lookup_insert_eq] at h
    split at h
    · cases Option.some.inj h
    · simp at h
  · intro k i h
    unfold storeOrphan at h
    rw [lookup_insert_eq] at h
    split at h
    · rw [← Record.investor.inj (Option.some.inj h)]
    · simp at h
  · intro k i x h0 h he
    unfold storeOrphan at h
    rw [lookup_insert_eq] at h
    split at h
    · rw [← Record.investor.inj (Option.some.inj h)] at he
      simp only [holdingEntry, holdingLookup_insert_eq] at he
      split at he
      · rw [← Option.some.inj he]
        decide
      · simp at he
    · simp at h
  · intro k a h
    unfold storeOrphan at h
    rw [lookup_insert_eq] at h
    split at h
    · cases Option.some.inj h
    · simp at h

/-- Claim C19 fails as stated: the store in which `inv1` holds 5 units of `Z1`, with nothing
stored under `Z1`, satisfies the invariant; the admissible call that registers `Z1` with a
total of 10 succeeds and leaves 10 units available plus 5 held against a total of 10, so the
invariant is not preserved. -/
theorem C19_counterexample :
    FullInv storeOrphan ∧
    admissibleCall (sampleEnv 0 0) storeOrphan (.registerAsset "Z1" "Zed" "bond" 10 10 50 5 0) ∧
    (exec (sampleEnv 0 0) storeOrphan (.registerAsset "Z1" "Zed" "bond" 10 10 50 5 0)).err
      = none ∧
    unitsAt (exec (sampleEnv 0 0) storeOrphan
      (.registerAsset "Z1" "Zed" "bond" 10 10 50 5 0)).store "Z1" = some (10, 10) ∧
    holdingSum (exec (sampleEnv 0 0) storeOrphan
      (.registerAsset "Z1" "Zed" "bond" 10 10 50 5 0)).store "Z1" = 5 ∧
    ¬ FullInv (exec (sampleEnv 0 0) storeOrphan
      (.registerAsset "Z1" "Zed" "bond" 10 10 50 5 0)).store := by
  refine ⟨FullInv_storeOrphan,
    ⟨sampleEnv_ideal _ _, sampleEnv_reliable _ _, trivial, (by decide : (0 : Int) ≤ 10),
      (by decide : (0 : Int) ≤ 10), (by decide : (0 : Int) ≤ 5)⟩,
    by decide, by decide, by decide, fun hf => ?_⟩
  have h := hf.conserved "Z1"
    { ISIN := "Z1", CompanyName := "Zed", AssetType := "bond", TotalUnits := 10,
      PricePerUnit := 10, AvailableUnits := 10, MaxAllowedUnits := 50, MinRedeemUnits := 5,
      LockInPeriodDays := 0 } (by decide)
  exact absurd h (by decide)

/-- Claim C19 as amended: the invariant holds in the empty store; together with the
structural invariant of the ledger (asset records under their own identifier, no holding of a
key without a record, conservation) it is preserved by every admissible call (ideal integers,
reliable store, disjoint investor and asset keys, non-negative arguments); hence it holds in
every store reachable by admissible calls; and there a successful redeem never leaves an
asset with more available units than its total. -/
theorem C19_inductive_invariant :
    FullInv (∅ : Store) ∧
    (∀ (env : Env) (st : Store) (c : Call), LedgerInv st → FullInv st →
      admissibleCall env st c →
      LedgerInv (exec env st c).store ∧ FullInv (exec env st c).store) ∧
    (∀ st, Reachable admissibleCall st → FullInv st) ∧
    (∀ (env : Env) (st : Store) (isin investorID : String) (u : Int) (a' : Asset),
      Reachable admissibleCall st → admissibleCall env st (.redeemAsset isin u investorID) →
      (RedeemAsset env st isin u investorID).err = none →
      (RedeemAsset env st isin u investorID).store.lookup isin = some (.asset a') →
      a'.AvailableUnits ≤ a'.TotalUnits) := by
  have hstep : ∀ (env : Env) (st : Store) (c : Call), LedgerInv st → FullInv st →
      admissibleCall env st c →
      LedgerInv (exec env st c).store ∧ FullInv (exec env st c).store := by
    intro env st c hl hf hc
    obtain ⟨hs, hm, hmin⟩ := hf.parts
    have hl' := LedgerInv_step hc.1 hc.2.1 (admissible_onAsset hc.2.2.1) hl
    exact ⟨hl', FullInv_of_parts hl'
      (SignInv_step hc.1 hc.2.1 (admissible_nonNegUnits hc.2.2.2) hs)
      (MoneyInv_step hc.1 hc.2.1 (admissible_nonNegMoney hc.2.2.2) hm)
      (minRedeem_step env hc.2.2.2 hmin)⟩
  have hempty : FullInv (∅ : Store) :=
    FullInv_of_parts LedgerInv_empty SignInv_empty MoneyInv_empty (fun k a h => by simp at h)
  have hreach : ∀ st, Reachable admissibleCall st → LedgerInv st ∧ FullInv st := by
    intro st h
    induction h with
    | refl => exact ⟨LedgerInv_empty, hempty⟩
    | step env c _ hok ih => exact hstep env _ c ih.1 ih.2 hok
  refine ⟨hempty, hstep, fun st h => (hreach st h).2, ?_⟩
  intro env st isin inv u a' hr hc _ ha'
  have h' : Reachable admissibleCall (exec env st (.redeemAsset isin u inv)).store :=
    .step env _ hr hc
  exact ((hreach _ h').2.assets isin a' ha').2.1

theorem not_asset_of_investor {st : Store} {k : String} {i : Investor}
    (h : st.lookup k = some (.investor i)) : ∀ a, st.lookup k ≠ some (.asset a) := by
  intro a ha
  rw [h] at ha
  cases ha

theorem storeA_reachable_admissible : Reachable admissibleCall storeA := by
  refine .step _ _ (.step _ _ (.step _ _ .refl ?_) ?_) ?_
  · exact ⟨sampleEnv_ideal _ _, sampleEnv_reliable _ _, trivial, (by decide : (0 : Int) ≤ 1000)⟩
  · exact ⟨sampleEnv_ideal _ _, sampleEnv_reliable _ _, trivial,
      (by decide : (0 : Int) ≤ 100), (by decide : (0 : Int) ≤ 10), (by decide : (0 : Int) ≤ 5)⟩
  · refine ⟨sampleEnv_ideal _ _, sampleEnv_reliable _ _, ⟨?_, ?_⟩, (by decide : (0 : Int) ≤ 20)⟩
    · exact not_investor_of_asset (a := { assetA with AvailableUnits := 100 }) (by decide)
    · exact not_asset_of_investor
        (i := { InvestorID := "inv1", Balance := 1000, Holdings := none }) (by rfl)

/-- Witness for C19: the store of scenario A is reachable by admissible calls and satisfies
the invariant, and after the redemption of scenario D the asset has 90 of 100 units
available. -/
theorem C19_inductive_invariant_witness :
    Reachable admissibleCall storeA ∧ FullInv storeA ∧
    admissibleCall (sampleEnv 9 9) storeA (.redeemAsset "A1" 10 "inv1") ∧
    (RedeemAsset (sampleEnv 9 9) storeA "A1" 10 "inv1").err = none ∧
    (RedeemAsset (sampleEnv 9 9) storeA "A1" 10 "inv1").store.lookup "A1"
      = some (.asset { assetA with AvailableUnits := 90 }) ∧
    ({ assetA with AvailableUnits := 90 } : Asset).AvailableUnits
      ≤ ({ assetA with AvailableUnits := 90 } : Asset).TotalUnits := by
  have hadm : admissibleCall (sampleEnv 9 9) storeA (.redeemAsset "A1" 10 "inv1") :=
    ⟨sampleEnv_ideal _ _, sampleEnv_reliable _ _,
      ⟨not_investor_of_asset storeA_asset, not_asset_of_investor storeA_investor⟩,
      (by decide : (0 : Int) ≤ 10)⟩
  have herr : (RedeemAsset (sampleEnv 9 9) storeA "A1" 10 "inv1").err = none := by decide
  have hlk : (RedeemAsset (sampleEnv 9 9) storeA "A1" 10 "inv1").store.lookup "A1"
      = some (.asset { assetA with AvailableUnits := 90 }) := by decide
  exact ⟨storeA_reachable_admissible,
    C19_inductive_invariant.2.2.1 storeA storeA_reachable_admissible, hadm, herr, hlk,
    C19_inductive_invariant.2.2.2 (sampleEnv 9 9) storeA "A1" "inv1" 10 _
      storeA_reachable_admissible hadm herr hlk⟩

/-! ## C20 -/

theorem wrap64_sub_add {x : Int} (y : Int) (hx : IsInt64 x) :
    wrap64 (wrap64 (x - y) + y) = x := by
  unfold IsInt64 at hx
  unfold wrap64
  omega

theorem wrap64_add_sub {x : Int} (y : Int) (hx : IsInt64 x) :
    wrap64 (wrap64 (x + y) - y) = x := by
  unfold IsInt64 at hx
  unfold wrap64
  omega

/-- Claim C20: with ideal integers, and also with 64-bit machine integers when the stored
available units, balance and held units are values of `int64`: for an investor record at
`investorID` and an asset record stored at `isin` under its own identifier, if
`SubscribeAsset(isin, units, investorID)` succeeds and the immediately following
`RedeemAsset(isin, units, investorID)` succeeds, then the asset record is the one before the
subscription, the investor has the same identifier and balance as before, its holding for
`isin` has the units it had before (0 if there was none), `ISIN = isin` and the timestamp of
the subscription, and all its other holdings are as before. -/
theorem C20_subscribe_redeem_round_trip (env1 env2 : Env) (st : Store)
    (isin investorID : String) (units : Int) (i : Investor) (a : Asset)
    (hsem : (env1.Ideal ∧ env2.Ideal) ∨
      (env1.Machine ∧ env2.Machine ∧ IsInt64 a.AvailableUnits ∧ IsInt64 i.Balance ∧
        IsInt64 (holdingAt i.Holdings isin).Units))
    (hri : st.lookup investorID = some (.investor i))
    (hra : st.lookup isin = some (.asset a)) (hkey : a.ISIN = isin)
    (h1 : (SubscribeAsset env1 st isin units investorID).err = none)
    (h2 : (RedeemAsset env2 (SubscribeAsset env1 st isin units investorID).store isin units
      investorID).err = none) :
    (RedeemAsset env2 (SubscribeAsset env1 st isin units investorID).store isin units
      investorID).store.lookup isin = some (.asset a) ∧
    ∃ i', (RedeemAsset env2 (SubscribeAsset env1 st isin units investorID).store isin units
        investorID).store.lookup investorID = some (.investor i') ∧
      i'.InvestorID = i.InvestorID ∧ i'.Balance = i.Balance ∧
      holdingEntry i'.Holdings isin
        = some { ISIN := isin,
                 Units := ((holdingEntry i.Holdings isin).map (fun h => h.Units)).getD 0,
                 SubscribedTimeStamp := env1.timeString env1.txTimestamp } ∧
      ∀ x, x ≠ isin → holdingEntry i'.Holdings x = holdingEntry i.Holdings x := by
  have hA : env2.intWrap (env1.intWrap (a.AvailableUnits - units) + units)
      = a.AvailableUnits := by
    rcases hsem with ⟨hI1, hI2⟩ | ⟨hM1, hM2, ha, _, _⟩
    · rw [hI1, hI2]
      ring
    · rw [hM1, hM2]
      exact wrap64_sub_add units ha
  have hB : env2.intWrap (env1.intWrap (i.Balance - env1.intWrap (units * a.PricePerUnit))
      + env2.intWrap (units * a.PricePerUnit)) = i.Balance := by
    rcases hsem with ⟨hI1, hI2⟩ | ⟨hM1, hM2, _, hb, _⟩
    · rw [hI1, hI1, hI2, hI2]
      ring
    · rw [hM1, hM1, hM2, hM2]
      exact wrap64_sub_add _ hb
  have hH : env2.intWrap (env1.intWrap ((holdingAt i.Holdings isin).Units + units) - units)
      = (holdingAt i.Holdings isin).Units := by
    rcases hsem with ⟨hI1, hI2⟩ | ⟨hM1, hM2, _, _, hh⟩
    · rw [hI1, hI2]
      ring
    · rw [hM1, hM2]
      exact wrap64_add_sub units hh
  have hne : isin ≠ investorID := by
    intro heq
    rw [heq, hri] at hra
    cases hra
  have hprev : ((holdingEntry i.Holdings isin).map (fun h => h.Units)).getD 0
      = (holdingAt i.Holdings isin).Units := by
    rw [holdingAt_eq_entry]
    cases holdingEntry i.Holdings isin <;> rfl
  obtain ⟨ri, ra, hri', hra', _, _, _, hst, _⟩ := SubscribeAsset_ok h1
  rw [hri] at hri'
  rw [hra] at hra'
  cases Option.some.inj hri'
  cases Option.some.inj hra'
  simp only [unmarshalAsset, unmarshalInvestor, hkey] at hst
  obtain ⟨ri2, ra2, hm2, ts2, hri2, hra2, _, _, _, _, _, hst2, _⟩ := RedeemAsset_ok h2
  rw [hst, AList.lookup_insert] at hri2
  rw [hst, lookup_transfer, if_neg hne, if_pos rfl] at hra2
  cases Option.some.inj hri2
  cases Option.some.inj hra2
  simp only [unmarshalAsset, unmarshalInvestor] at hst2
  have hk1 : (subscribedAsset env1 a units).ISIN = isin := hkey
  rw [hk1] at hst2
  rw [hst2]
  refine ⟨?_, redeemedInvestor env2 (subscribedInvestor env1 i a isin units)
    (subscribedAsset env1 a units) isin units, AList.lookup_insert _, rfl, ?_, ?_, ?_⟩
  · rw [lookup_transfer, if_neg hne, if_pos rfl]
    have : redeemedAsset env2 (subscribedAsset env1 a units) units = a := by
      obtain ⟨x1, x2, x3, x4, x5, x6, x7, x8, x9⟩ := a
      simp only [redeemedAsset, subscribedAsset] at hA ⊢
      rw [hA]
    rw [this]
  · simp only [redeemedInvestor, subscribedInvestor, subscribedAsset]
    exact hB
  · rw [holdingEntry_redeemedInvestor, if_pos rfl, holdingAt_subscribedInvestor, if_pos rfl]
    simp only
    rw [hH, hprev]
  · intro x hx
    rw [holdingEntry_redeemedInvestor, if_neg hx, holdingEntry_subscribedInvestor, if_neg hx]

/-- Witness for C20 (machine integers): after the subscription of 20 units of scenario A and
the redemption of the same 20 units, the asset record is again the one registered, with all
100 units available, and `inv1` has balance 1000 again and a holding of 0 units stamped with
the time of the subscription. -/
theorem C20_subscribe_redeem_round_trip_witness :
    (SubscribeAsset (env64 7 7) storeA2 "A1" 20 "inv1").err = none ∧
    (RedeemAsset (env64 9 9) (SubscribeAsset (env64 7 7) storeA2 "A1" 20 "inv1").store "A1" 20
      "inv1").err = none ∧
    storeRound.lookup "A1" = storeA2.lookup "A1" ∧
    unitsAt storeRound "A1" = some (100, 100) ∧ balanceAt storeRound "inv1" = some 1000 ∧
    holdingOf storeRound "inv1" "A1"
      = some { ISIN := "A1", Units := 0, SubscribedTimeStamp := "7" } := by
  have h1 : (SubscribeAsset (env64 7 7) storeA2 "A1" 20 "inv1").err = none := by decide
  have h2 : (RedeemAsset (env64 9 9) (SubscribeAsset (env64 7 7) storeA2 "A1" 20 "inv1").store
      "A1" 20 "inv1").err = none := by decide
  have hA2 : storeA2.lookup "A1" = some (.asset { assetA with AvailableUnits := 100 }) := by
    decide
  obtain ⟨hasset, i', hi', _, hbal, hent, _⟩ :=
    C20_subscribe_redeem_round_trip (env64 7 7) (env64 9 9) storeA2 "A1" "inv1" 20
      { InvestorID := "inv1", Balance := 1000, Holdings := none }
      { assetA with AvailableUnits := 100 }
      (Or.inr ⟨fun _ => rfl, fun _ => rfl, ⟨by decide, by decide⟩, ⟨by decide, by decide⟩,
        ⟨by decide, by decide⟩⟩)
      (by rfl) hA2 rfl h1 h2
  have hasset' : storeRound.lookup "A1"
      = some (.asset { assetA with AvailableUnits := 100 }) := hasset
  have hi'' : storeRound.lookup "inv1" = some (.investor i') := hi'
  refine ⟨h1, h2, hasset'.trans hA2.symm, ?_, ?_, ?_⟩
  · simp only [unitsAt, hasset', Option.map_some', unmarshalAsset]
    rfl
  · simp only [balanceAt, hi'', Option.map_some', unmarshalInvestor, hbal]
  · simp only [holdingOf, hi'', Option.some_bind, unmarshalInvestor, hent]
    rfl

end AssetCC
